import Mathlib

/-!
# Combat resolution and special-move input recognition

A shallow embedding of the fighting-game client's `InputHandler`
(`src/js/engine/inputHandler.js`), `CharacterBase` (`src/js/characters/characterBase.js`),
`Mia` (`src/js/characters/Mia.js`) and the tick, winner selection and hit resolution of
`GameEngine` (`src/js/game/gameEngine.js`), followed by the properties proved about them.

Conventions of the embedding:

* JavaScript numbers are exact rationals (`ℚ`) wherever the arithmetic of the code is exact
  on the values concerned. Where a property turns on the rounding of doubles, on `NaN` or on
  an infinity, the number is a `Float64`: the stale-input test of `InputHandler.update`, the
  special meter, and `CharacterBase.takeDamage.health64`, the health computation of
  `takeDamage` in binary64.
* A table written as an object literal is read with `objectLookup`: the own entries first,
  then the members inherited from `Object.prototype`.
* A method that mutates `this` is a function from the object's state to the new state
  together with a `Completion`: either the value returned, or the exception thrown
  (the state is then the one reached when the exception was raised).
* `setTimeout(cb, ms)` appends a `Timer` to the object's list of pending timers.
* Calls into the rendering, particle and sound libraries have no effect on the
  modelled state and are left out.
* A method that is called but defined nowhere in the repository is a `TypeError` when the
  receiver is `this` of `CharacterBase`, and a parameter (`PlayerMethods`, `EngineEnv`) when
  the receiver is a player handed to the engine.
-/

namespace Fighting

/-! ## JavaScript values -/

/-- The JavaScript values that occur in the input buffer: `undefined`, numbers, strings
and plain objects (a list of own properties, first binding of a key wins). -/
inductive JSVal where
  | undefined : JSVal
  | num (n : ℚ) : JSVal
  | str (s : String) : JSVal
  | obj (fields : List (String × JSVal)) : JSVal

/-- Strict equality `a === b`. Two object operands are compared by reference in
JavaScript; references are not tracked, and two object operands are reported unequal
(no comparison of the modelled code has two object operands). -/
def JSVal.strictEq : JSVal → JSVal → Bool
  | .undefined, .undefined => true
  | .num a, .num b => decide (a = b)
  | .str a, .str b => decide (a = b)
  | _, _ => false

instance : BEq JSVal := ⟨JSVal.strictEq⟩

/-- Property read `v.key`: the own property of a plain object, `undefined` when the
object has no such key. (Reads on non-objects do not occur in the modelled code.) -/
def JSVal.getProp : JSVal → String → JSVal
  | .obj fields, key => (fields.lookup key).getD .undefined
  | _, _ => .undefined

/-- Array method `arr.slice(-n)`: the last `n` elements (the whole array when it is shorter). -/
def sliceLast {α : Type} (n : Nat) (arr : List α) : List α :=
  arr.drop (arr.length - n)

/-- The property names that every object literal inherits from `Object.prototype`. -/
def objectPrototypeKeys : List String :=
  ["constructor", "__defineGetter__", "__defineSetter__", "hasOwnProperty",
   "__lookupGetter__", "__lookupSetter__", "isPrototypeOf", "propertyIsEnumerable",
   "toString", "valueOf", "__proto__", "toLocaleString"]

/-- The value of `table[key]` for a table written as an object literal. -/
inductive Property (α : Type) where
  /-- An entry of the literal. -/
  | own (value : α) : Property α
  /-- A member of `Object.prototype` (a function, or the prototype itself for `__proto__`):
  truthy, and without any of the properties of a table entry (`hitbox`, `meterCost`,
  `startup`, ... read `undefined` on it). -/
  | inherited : Property α
  /-- No such property: `undefined`. -/
  | missing : Property α

/-- The read `table[key]`: the entry of the literal under `key` (the first one in the list
of entries), else the inherited member when `key` names one, else `undefined`. -/
def objectLookup {α : Type} (table : List (String × α)) (key : String) : Property α :=
  match table.lookup key with
  | some value => .own value
  | none => if key ∈ objectPrototypeKeys then .inherited else .missing

/-! ## Binary64 numbers -/

/-- A JavaScript number where a claim turns on its rounding, on `NaN` or on an infinity: a
finite double given by its exact value, `Infinity`, `-Infinity` or `NaN`. The sign of a
zero is not tracked. -/
inductive Float64 where
  | finite (value : ℚ) : Float64
  | posInf : Float64
  | negInf : Float64
  | nan : Float64
  deriving DecidableEq

instance : Coe ℚ Float64 := ⟨Float64.finite⟩

instance (n : Nat) : OfNat Float64 n := ⟨Float64.finite n⟩

/-- Rounding to the nearest integer, a tie going to the even one. -/
def roundHalfEven (t : ℚ) : ℤ :=
  if t - ⌊t⌋ < 1 / 2 then ⌊t⌋
  else if 1 / 2 < t - ⌊t⌋ then ⌊t⌋ + 1
  else if ⌊t⌋ % 2 = 0 then ⌊t⌋
  else ⌊t⌋ + 1

/-- The exponent `q` of the spacing `2 ^ q` of the doubles around `x`: 52 below the binary
exponent of `x`, and `-1074` throughout the subnormal range. (For `x = 0` the value is of no
consequence: 0 is on every grid.) -/
def Float64.quantum (x : ℚ) : ℤ :=
  max (Int.log 2 |x|) (-1022) - 52

/-- The multiple of the spacing around `x` that is nearest to `x`, a tie going to the even
multiple. -/
def Float64.nearest (x : ℚ) : ℚ :=
  (roundHalfEven (x / 2 ^ Float64.quantum x) : ℚ) * 2 ^ Float64.quantum x

/-- The result of an operation whose exact value is `x`: the nearest double (round to
nearest, ties to even), and `Infinity` or `-Infinity` when its magnitude reaches
`2 ^ 1024`. -/
def Float64.round (x : ℚ) : Float64 :=
  if (2 : ℚ) ^ (1024 : ℕ) ≤ |Float64.nearest x| then (if 0 < x then .posInf else .negInf)
  else .finite (Float64.nearest x)

/-- The operator `a - b` on numbers. -/
def Float64.sub : Float64 → Float64 → Float64
  | .finite a, .finite b => Float64.round (a - b)
  | .finite _, .posInf => .negInf
  | .finite _, .negInf => .posInf
  | .posInf, .finite _ => .posInf
  | .posInf, .negInf => .posInf
  | .negInf, .finite _ => .negInf
  | .negInf, .posInf => .negInf
  | _, _ => .nan

/-- The operator `a * b` on numbers. -/
def Float64.mul : Float64 → Float64 → Float64
  | .finite a, .finite b => Float64.round (a * b)
  | .finite a, .posInf => if a = 0 then .nan else if 0 < a then .posInf else .negInf
  | .finite a, .negInf => if a = 0 then .nan else if 0 < a then .negInf else .posInf
  | .posInf, .finite b => if b = 0 then .nan else if 0 < b then .posInf else .negInf
  | .negInf, .finite b => if b = 0 then .nan else if 0 < b then .negInf else .posInf
  | .posInf, .posInf => .posInf
  | .negInf, .negInf => .posInf
  | .posInf, .negInf => .negInf
  | .negInf, .posInf => .negInf
  | _, _ => .nan

/-- The operator `a < b` on numbers: false when an operand is `NaN`. -/
def Float64.lt : Float64 → Float64 → Bool
  | .finite a, .finite b => decide (a < b)
  | .finite _, .posInf => true
  | .negInf, .finite _ => true
  | .negInf, .posInf => true
  | _, _ => false

instance : LT Float64 := ⟨fun a b => Float64.lt a b = true⟩

instance (a b : Float64) : Decidable (a < b) :=
  inferInstanceAs (Decidable (Float64.lt a b = true))

instance : Sub Float64 := ⟨Float64.sub⟩

instance : Mul Float64 := ⟨Float64.mul⟩

/-- The function `Math.max(a, b)`: `NaN` when an operand is `NaN`. -/
def Float64.max : Float64 → Float64 → Float64
  | .nan, _ => .nan
  | _, .nan => .nan
  | .posInf, _ => .posInf
  | _, .posInf => .posInf
  | .negInf, b => b
  | a, .negInf => a
  | .finite a, .finite b => .finite (Max.max a b)

/-! ## InputHandler -/

/-- The fields of an `InputHandler` that the buffer logic reads and writes. `keys` holds
the key codes currently in the `keys` map. -/
structure InputHandler where
  keys : List String
  inputBuffer : List JSVal
  bufferTimeout : ℚ
  bufferTimer : ℚ

/-- State set up by the constructor. -/
def InputHandler.new : InputHandler :=
  { keys := [], inputBuffer := [], bufferTimeout := 15, bufferTimer := 0 }

/-- Table `p1Controls`, in declaration order (action, key code). -/
def p1Controls : List (String × String) :=
  [("up", "KeyW"), ("down", "KeyS"), ("left", "KeyA"), ("right", "KeyD"),
   ("punch", "KeyU"), ("kick", "KeyI"), ("special", "KeyO"), ("block", "KeyP")]

/-- Table `p2Controls`, in declaration order (action, key code). -/
def p2Controls : List (String × String) :=
  [("up", "ArrowUp"), ("down", "ArrowDown"), ("left", "ArrowLeft"), ("right", "ArrowRight"),
   ("punch", "Numpad1"), ("kick", "Numpad2"), ("special", "Numpad3"), ("block", "Numpad4")]

/-- Table `specialMovePatterns`, in declaration order (move name, pattern). -/
def specialMovePatterns : List (String × List JSVal) :=
  [("hadoken", [.str "down", .str "downforward", .str "forward", .str "punch"]),
   ("shoryuken", [.str "forward", .str "down", .str "downforward", .str "punch"]),
   ("tatsumaki", [.str "down", .str "downback", .str "back", .str "kick"]),
   ("superCombo", [.str "down", .str "down", .str "up", .str "special"])]

/-- The object literal `{ player, action }`. -/
def mkInput (player : ℚ) (action : String) : JSVal :=
  .obj [("player", .num player), ("action", .str action)]

/-- Method `addToBuffer(input)`, with `now` the value of `performance.now()`: pushes the entry
`{ input, timestamp }` and shifts the oldest entry out when the length exceeds 10. -/
def InputHandler.addToBuffer (h : InputHandler) (input : JSVal) (now : ℚ) : InputHandler :=
  let pushed := h.inputBuffer ++ [JSVal.obj [("input", input), ("timestamp", .num now)]]
  if pushed.length > 10 then { h with inputBuffer := pushed.tail }
  else { h with inputBuffer := pushed }

/-- Method `getInputFromKeyCode(keyCode)`: the first player-1 control bound to the key code, else
the first player-2 control, else `null` (here `none`). -/
def getInputFromKeyCode (keyCode : String) : Option JSVal :=
  match p1Controls.find? (fun entry => entry.2 == keyCode) with
  | some entry => some (mkInput 1 entry.1)
  | none =>
    match p2Controls.find? (fun entry => entry.2 == keyCode) with
    | some entry => some (mkInput 2 entry.1)
    | none => none

/-- Method `handleKeyDown(keyCode)`: a key not yet held is stored in `keys` and its input, when
the key is bound, is added to the buffer. -/
def InputHandler.handleKeyDown (h : InputHandler) (keyCode : String) (now : ℚ) :
    InputHandler :=
  if !h.keys.contains keyCode then
    let h1 := { h with keys := h.keys ++ [keyCode] }
    match getInputFromKeyCode keyCode with
    | some input => h1.addToBuffer input now
    | none => h1
  else h

/-- Method `handleKeyUp(keyCode)`: the key leaves the `keys` map. -/
def InputHandler.handleKeyUp (h : InputHandler) (keyCode : String) : InputHandler :=
  { h with keys := h.keys.filter (fun k => k != keyCode) }

/-- Method `handleGamepadButton(playerIndex, action)`. -/
def InputHandler.handleGamepadButton (h : InputHandler) (playerIndex : ℚ) (action : String)
    (now : ℚ) : InputHandler :=
  h.addToBuffer (mkInput (playerIndex + 1) action) now

/-- Method `handleGamepadAxis(playerIndex, direction)`. -/
def InputHandler.handleGamepadAxis (h : InputHandler) (playerIndex : ℚ) (direction : String)
    (now : ℚ) : InputHandler :=
  h.addToBuffer (mkInput (playerIndex + 1) direction) now

/-- The inner loop of `matchesPattern`, `for (let j = ...; j < pattern.length; j++)`, with
`n` iterations left: `false` at the first `j` with `inputs[i + j] !== pattern[j]`, `true`
when the loop runs to its end. An index outside an array reads `undefined` (`none`). -/
def matchesPattern.inner {α : Type} [BEq α] (inputs pattern : List α) (i : Nat) :
    Nat → Nat → Bool
  | 0, _ => true
  | n + 1, j =>
    if inputs[i + j]? != pattern[j]? then false
    else matchesPattern.inner inputs pattern i n (j + 1)

/-- The outer loop of `matchesPattern`, `for (let i = ...; i <= inputs.length -
pattern.length; i++)`, with `n` iterations left: `true` at the first `i` whose inner loop
leaves `matches` true, `false` when the loop runs to its end. -/
def matchesPattern.outer {α : Type} [BEq α] (inputs pattern : List α) : Nat → Nat → Bool
  | 0, _ => false
  | n + 1, i =>
    if matchesPattern.inner inputs pattern i pattern.length 0 then true
    else matchesPattern.outer inputs pattern n (i + 1)

/-- Method `matchesPattern(inputs, pattern)`: `false` when `inputs` is shorter than
`pattern`, else the outer loop over `i = 0 .. inputs.length - pattern.length`. -/
def matchesPattern {α : Type} [BEq α] (inputs pattern : List α) : Bool :=
  if inputs.length < pattern.length then false
  else matchesPattern.outer inputs pattern (inputs.length - pattern.length + 1) 0

/-- Method `checkSpecialMove(player)`: the buffer entries whose `player` property is strictly
equal to `player`, mapped to their `action` property, last 8 of them; the name of the first
configured pattern they match, or `null` (here `none`). -/
def InputHandler.checkSpecialMove (h : InputHandler) (player : JSVal) : Option String :=
  let recentInputs :=
    sliceLast 8 ((h.inputBuffer.filter (fun input => input.getProp "player" == player)).map
      (fun input => input.getProp "action"))
  match specialMovePatterns.find? (fun entry => matchesPattern recentInputs entry.2) with
  | some entry => some entry.1
  | none => none

/-- The test of the purge, `currentTime - input.timestamp < this.bufferTimeout * 16.67`, as
binary64 evaluates it: the difference and the product are each rounded to a double, and
`16.67` is the double nearest to 1667/100. -/
def InputHandler.isRecent (bufferTimeout currentTime timestamp : ℚ) : Bool :=
  Float64.lt (Float64.sub (.finite currentTime) (.finite timestamp))
    (Float64.mul (.finite bufferTimeout) (Float64.round (1667 / 100)))

/-- The purge of `InputHandler.update` at time `currentTime`: keeps the entries with
`currentTime - input.timestamp < bufferTimeout * 16.67`. An entry without a numeric
`timestamp` (none is pushed by `addToBuffer`) is dropped: on `undefined` the difference is
`NaN` and the comparison false. -/
def InputHandler.purge (h : InputHandler) (currentTime : ℚ) : InputHandler :=
  { h with inputBuffer := h.inputBuffer.filter (fun input =>
      match input.getProp "timestamp" with
      | .num t => InputHandler.isRecent h.bufferTimeout currentTime t
      | _ => false) }

/-- Method `InputHandler.reset()`. -/
def InputHandler.reset (h : InputHandler) : InputHandler :=
  { h with keys := [], inputBuffer := [], bufferTimer := 0 }

/-! ## CharacterBase -/

/-- A `PIXI.Rectangle`: `x`, `y`, `width`, `height`. -/
structure Rectangle where
  x : ℚ
  y : ℚ
  width : ℚ
  height : ℚ
  deriving DecidableEq

/-- A `PIXI.Point`. -/
structure Point where
  x : ℚ
  y : ℚ
  deriving DecidableEq

/-- An entry of the table built by `setupAttacks`. -/
structure AttackDef where
  damage : ℚ
  startup : ℚ
  active : ℚ
  recovery : ℚ
  hitbox : Rectangle
  knockback : ℚ
  deriving DecidableEq

/-- An entry of the table built by `Mia.setupSpecialMoves`. -/
structure SpecialMoveDef where
  name : String
  damage : ℚ
  meterCost : ℚ
  startup : ℚ
  active : ℚ
  recovery : ℚ
  hitbox : Rectangle
  knockback : ℚ
  input : List String
  deriving DecidableEq

/-- The exceptions raised by the modelled code. -/
inductive JSError where
  | typeError
  | referenceError
  deriving DecidableEq

/-- How a call ends: with a returned value or with a thrown exception. -/
inductive Completion (α : Type) where
  | returned (value : α) : Completion α
  | threw (error : JSError) : Completion α
  deriving DecidableEq

/-- The callbacks handed to `setTimeout` / `requestAnimationFrame`. -/
inductive TimerCallback where
  /-- Scheduled by `attack`: back to idle if the state is still `attacking`. -/
  | attackEnd
  /-- Scheduled by `takeDamage`: `isInvulnerable = false`. -/
  | invulnerabilityEnd
  /-- Scheduled by `executeSpecialMove`: back to idle if the state is still `special`. -/
  | specialEnd
  /-- Scheduled by `executeTideWave`: the emitter stops. -/
  | tideWaveEnd
  /-- Scheduled by `executeSurferKick`: the emitter stops, `velocity.x = 0`. -/
  | surferKickEnd
  /-- Requested by `executeWaterDance`: the next frame of the spiral animation. -/
  | waterDanceFrame
  deriving DecidableEq

/-- A pending timer: the delay in milliseconds and the callback. -/
structure Timer where
  delay : ℚ
  callback : TimerCallback
  deriving DecidableEq

/-- The fields of a character (`CharacterBase`, and `Mia` which adds the water emitter).
`currentSprite` is the key of the current sprite in `sprites`, `none` when the last lookup
`sprites[newState]` gave no sprite; `currentHitbox` is `none` for `null` and for
`undefined`, which the code does not tell apart (it only tests the field for truth). The
rectangle held by `currentHitbox` is a copy of the one in the move table. `specialMeter` is
a `Float64`: `executeSpecialMove` can make it `NaN`. -/
structure CharacterBase where
  health : ℚ
  maxHealth : ℚ
  specialMeter : Float64
  maxSpecialMeter : ℚ
  speed : ℚ
  jumpForce : ℚ
  weight : ℚ
  state : String
  isGrounded : Bool
  isBlocking : Bool
  isAttacking : Bool
  isInvulnerable : Bool
  direction : ℚ
  comboCount : ℚ
  lastAttackTime : ℚ
  position : Point
  velocity : Point
  currentSprite : Option String
  currentHitbox : Option Rectangle
  hurtbox : Rectangle
  inputBufferTimer : ℚ
  timers : List Timer
  waterEmitterEmit : Bool
  deriving DecidableEq

/-- The keys of `this.sprites` (`setupSprites`). -/
def spriteKeys : List String :=
  ["idle", "walk", "jump", "attack", "special", "hurt", "victory", "defeat"]

/-- The table returned by `setupAttacks`, in declaration order. -/
def setupAttacks : List (String × AttackDef) :=
  [("lightPunch", { damage := 5, startup := 3, active := 2, recovery := 5,
                    hitbox := ⟨-30, -50, 60, 40⟩, knockback := 5 }),
   ("heavyPunch", { damage := 10, startup := 5, active := 3, recovery := 8,
                    hitbox := ⟨-40, -60, 80, 50⟩, knockback := 8 }),
   ("lightKick", { damage := 7, startup := 4, active := 3, recovery := 6,
                   hitbox := ⟨-35, -30, 70, 60⟩, knockback := 6 }),
   ("heavyKick", { damage := 12, startup := 6, active := 4, recovery := 10,
                   hitbox := ⟨-45, -40, 90, 80⟩, knockback := 10 })]

/-- State set up by the `CharacterBase` constructor with default options. -/
def CharacterBase.new : CharacterBase :=
  { health := 100, maxHealth := 100, specialMeter := 0, maxSpecialMeter := 100,
    speed := 5, jumpForce := -15, weight := 1,
    state := "idle", isGrounded := false, isBlocking := false, isAttacking := false,
    isInvulnerable := false, direction := 1, comboCount := 0, lastAttackTime := 0,
    position := ⟨0, 0⟩, velocity := ⟨0, 0⟩,
    currentSprite := some "idle", currentHitbox := none, hurtbox := ⟨0, 0, 0, 0⟩,
    inputBufferTimer := 0, timers := [], waterEmitterEmit := false }

/-- Method `changeState(newState)`. Nothing happens when the state is already `newState`.
Otherwise the current sprite is hidden (a `TypeError` when `currentSprite` is no sprite),
the state is set, `currentSprite` becomes `sprites[newState]`, and that sprite is shown (a
`TypeError` when `newState` is not a key of `sprites`: the value read is `undefined`, or a
member of `Object.prototype`, which has no `play`). -/
def CharacterBase.changeState (c : CharacterBase) (newState : String) :
    CharacterBase × Completion Unit :=
  if c.state = newState then (c, .returned ())
  else
    match c.currentSprite with
    | none => (c, .threw .typeError)
    | some _ =>
      if newState ∈ spriteKeys then
        ({ c with state := newState, currentSprite := some newState }, .returned ())
      else
        ({ c with state := newState, currentSprite := none }, .threw .typeError)

/-- Method `move(direction)`; `Math.sign` is `SignType.sign` read as a number. -/
def CharacterBase.move (c : CharacterBase) (direction : ℚ) : CharacterBase × Completion Unit :=
  if c.state = "attacking" ∨ c.state = "hurt" then (c, .returned ())
  else
    CharacterBase.changeState
      { c with velocity := { c.velocity with x := c.speed * direction },
               direction := (SignType.sign direction : ℚ) } "walk"

/-- Method `jump()`. -/
def CharacterBase.jump (c : CharacterBase) : CharacterBase × Completion Unit :=
  if !c.isGrounded then (c, .returned ())
  else
    CharacterBase.changeState
      { c with velocity := { c.velocity with y := c.jumpForce }, isGrounded := false } "jump"

/-- Method `attack(type)`; `attacks[type]` is the read of the table of `setupAttacks`. The
timer is scheduled only when `changeState` returns. For a `type` that names a member of
`Object.prototype`, `attack` is truthy and `attack.hitbox` is `undefined`; the delay of the
timer would be `NaN`, which `setTimeout` takes as 0. -/
def CharacterBase.attack (c : CharacterBase) (type : String) : CharacterBase × Completion Unit :=
  if c.state = "attacking" ∨ c.state = "hurt" then (c, .returned ())
  else
    match objectLookup setupAttacks type with
    | .missing => (c, .returned ())
    | .own attack =>
      match CharacterBase.changeState
          { c with isAttacking := true, currentHitbox := some attack.hitbox } "attacking" with
      | (c1, .threw e) => (c1, .threw e)
      | (c1, .returned _) =>
        ({ c1 with timers := c1.timers ++
            [{ delay := (attack.startup + attack.active + attack.recovery) * (1667 / 100),
               callback := .attackEnd }] }, .returned ())
    | .inherited =>
      match CharacterBase.changeState
          { c with isAttacking := true, currentHitbox := none } "attacking" with
      | (c1, .threw e) => (c1, .threw e)
      | (c1, .returned _) =>
        ({ c1 with timers := c1.timers ++ [{ delay := 0, callback := .attackEnd }] },
          .returned ())

/-- Method `defeat()`. -/
def CharacterBase.defeat (c : CharacterBase) : CharacterBase × Completion Unit :=
  c.changeState "defeat"

/-- Method `victory()`. -/
def CharacterBase.victory (c : CharacterBase) : CharacterBase × Completion Unit :=
  c.changeState "victory"

/-- Method `takeDamage(amount)`: the health is written before `changeState('hurt')` is
called; the invulnerability timer is scheduled and `defeat` is tested only when that call
returns. The health is computed exactly here; `CharacterBase.takeDamage.health64` is the
same computation with the rounding of binary64. -/
def CharacterBase.takeDamage (c : CharacterBase) (amount : ℚ) :
    CharacterBase × Completion Unit :=
  let amount := if c.isBlocking then amount * (2 / 10) else amount
  match CharacterBase.changeState
      { c with health := max 0 (c.health - amount), isInvulnerable := true } "hurt" with
  | (c1, .threw e) => (c1, .threw e)
  | (c1, .returned _) =>
    let c2 := { c1 with timers := c1.timers ++ [{ delay := 1000, callback := .invulnerabilityEnd }] }
    if c2.health ≤ 0 then c2.defeat else (c2, .returned ())

/-- The health that `takeDamage(amount)` assigns, `if (this.isBlocking) amount *= 0.2;` and
`this.health = Math.max(0, this.health - amount)`, as binary64 evaluates it on a character
whose health is the double `c.health`: the product and the difference are each rounded to a
double, and `0.2` is the double nearest to 2/10. -/
def CharacterBase.takeDamage.health64 (c : CharacterBase) (amount : ℚ) : Float64 :=
  let amount : Float64 :=
    if c.isBlocking then Float64.mul (.finite amount) (Float64.round (2 / 10))
    else .finite amount
  Float64.max (.finite 0) (Float64.sub (.finite c.health) amount)

/-- Method `reset()`. -/
def CharacterBase.reset (c : CharacterBase) : CharacterBase × Completion Unit :=
  CharacterBase.changeState
    { c with health := c.maxHealth, specialMeter := 0, position := ⟨0, 0⟩, velocity := ⟨0, 0⟩,
             isGrounded := false, isBlocking := false, isAttacking := false,
             isInvulnerable := false, comboCount := 0 } "idle"

/-! ## Mia -/

/-- State set up by the `Mia` constructor with default options. -/
def Mia.new : CharacterBase :=
  { CharacterBase.new with speed := 6, jumpForce := -16, weight := 9 / 10 }

/-- The table returned by `Mia.setupSpecialMoves`, in declaration order. -/
def Mia.setupSpecialMoves : List (String × SpecialMoveDef) :=
  [("tideWave", { name := "Tide Wave", damage := 15, meterCost := 25, startup := 8,
                  active := 5, recovery := 12, hitbox := ⟨-60, -40, 120, 80⟩, knockback := 12,
                  input := ["down", "downforward", "forward", "punch"] }),
   ("surferKick", { name := "Surfer Kick", damage := 18, meterCost := 35, startup := 6,
                    active := 4, recovery := 15, hitbox := ⟨-50, -60, 100, 120⟩,
                    knockback := 15, input := ["down", "downback", "back", "kick"] }),
   ("waterDance", { name := "Water Dance", damage := 30, meterCost := 50, startup := 10,
                    active := 8, recovery := 20, hitbox := ⟨-100, -100, 200, 200⟩,
                    knockback := 20, input := ["down", "down", "up", "special"] })]

/-- Method `executeTideWave()`. -/
def Mia.executeTideWave (c : CharacterBase) : CharacterBase :=
  { c with waterEmitterEmit := true,
           timers := c.timers ++ [{ delay := 300, callback := .tideWaveEnd }] }

/-- Method `executeSurferKick()`. -/
def Mia.executeSurferKick (c : CharacterBase) : CharacterBase :=
  { c with waterEmitterEmit := true,
           velocity := { c.velocity with x := c.direction * 15 },
           timers := c.timers ++ [{ delay := 400, callback := .surferKickEnd }] }

/-- Method `executeWaterDance()`: the first call of `animate` (no time elapsed) turns the emitter
on and requests the next animation frame. -/
def Mia.executeWaterDance (c : CharacterBase) : CharacterBase :=
  { c with waterEmitterEmit := true,
           timers := c.timers ++ [{ delay := 0, callback := .waterDanceFrame }] }

/-- Method `executeSpecialMove(moveName)`; `specialMoves[moveName]` is the read of the table
of `setupSpecialMoves`. For a `moveName` that names a member of `Object.prototype`, `move` is
truthy and `move.meterCost` is `undefined`: `this.specialMeter < undefined` is false, the
subtraction leaves `NaN` in the meter, `move.hitbox` is `undefined`, no case of the `switch`
applies, and the delay of the timer is `NaN`, which `setTimeout` takes as 0. -/
def Mia.executeSpecialMove (c : CharacterBase) (moveName : String) :
    CharacterBase × Completion Bool :=
  match objectLookup Mia.setupSpecialMoves moveName with
  | .missing => (c, .returned false)
  | .inherited =>
    match CharacterBase.changeState
        { c with specialMeter := .nan, isAttacking := true, currentHitbox := none }
        "special" with
    | (c1, .threw e) => (c1, .threw e)
    | (c1, .returned _) =>
      ({ c1 with timers := c1.timers ++ [{ delay := 0, callback := .specialEnd }] },
        .returned true)
  | .own move =>
    if c.specialMeter < move.meterCost then (c, .returned false)
    else
      match CharacterBase.changeState
          { c with specialMeter := c.specialMeter - move.meterCost, isAttacking := true,
                   currentHitbox := some move.hitbox } "special" with
      | (c1, .threw e) => (c1, .threw e)
      | (c1, .returned _) =>
        let c2 :=
          if moveName = "tideWave" then Mia.executeTideWave c1
          else if moveName = "surferKick" then Mia.executeSurferKick c1
          else if moveName = "waterDance" then Mia.executeWaterDance c1
          else c1
        ({ c2 with timers := c2.timers ++
            [{ delay := (move.startup + move.active + move.recovery) * (1667 / 100),
               callback := .specialEnd }] }, .returned true)

/-! ## GameEngine: hit detection and resolution -/

/-- The methods that `GameEngine` calls on a player and that neither `CharacterBase` nor
`Mia` defines (`getCurrentAttack`, `applyKnockback`, `incrementCombo`, `getBounds`), taken
as parameters: each may return or throw. -/
structure PlayerMethods where
  getCurrentAttack : CharacterBase → Completion (Option AttackDef)
  applyKnockback : CharacterBase → ℚ → ℚ → CharacterBase × Completion Unit
  incrementCombo : CharacterBase → CharacterBase × Completion Unit
  getBounds : CharacterBase → Completion Rectangle

/-- The players of the repository as they are: calling a method that the object does not
have is a `TypeError`. -/
def PlayerMethods.absent : PlayerMethods :=
  { getCurrentAttack := fun _ => .threw .typeError
    applyKnockback := fun c _ _ => (c, .threw .typeError)
    incrementCombo := fun c => (c, .threw .typeError)
    getBounds := fun _ => .threw .typeError }

/-- Method `checkHitboxCollision(attacker, defender)`:
`attacker.currentHitbox && attacker.currentHitbox.intersects(defender.getBounds())`, with
`intersects` the library test of `PIXI.Rectangle`. A `null` hitbox is falsy (here `false`)
and nothing else is evaluated. -/
def GameEngine.checkHitboxCollision (m : PlayerMethods) (intersects : Rectangle → Rectangle → Bool)
    (attacker defender : CharacterBase) : Completion Bool :=
  match attacker.currentHitbox with
  | none => .returned false
  | some hitbox =>
    match m.getBounds defender with
    | .threw e => .threw e
    | .returned bounds => .returned (intersects hitbox bounds)

/-- Method `resolveHit(attacker, defender)`: the pair of players afterwards and how the call
ends. `spawnHitEffect` constructs a `HitEffect`, a name that is not bound in the module: a
`ReferenceError`. -/
def GameEngine.resolveHit (m : PlayerMethods) (attacker defender : CharacterBase) :
    (CharacterBase × CharacterBase) × Completion Unit :=
  match m.getCurrentAttack attacker with
  | .threw e => ((attacker, defender), .threw e)
  | .returned none => ((attacker, defender), .returned ())
  | .returned (some hit) =>
    if !defender.isInvulnerable then
      match defender.takeDamage hit.damage with
      | (d1, .threw e) => ((attacker, d1), .threw e)
      | (d1, .returned _) =>
        match m.applyKnockback d1 hit.knockback attacker.direction with
        | (d2, .threw e) => ((attacker, d2), .threw e)
        | (d2, .returned _) => ((attacker, d2), .threw .referenceError)
    else ((attacker, defender), .returned ())

/-! ## CharacterBase: the per-frame update and the timer callbacks -/

/-- Method `updateInputBuffer(deltaTime)`: the timer advances and is reset (with the
character's own, always empty, input buffer) once it exceeds 10. -/
def CharacterBase.updateInputBuffer (c : CharacterBase) (deltaTime : ℚ) : CharacterBase :=
  if c.inputBufferTimer + deltaTime > 10 then { c with inputBufferTimer := 0 }
  else { c with inputBufferTimer := c.inputBufferTimer + deltaTime }

/-- Method `updateHitboxes()`: the hurtbox follows the position; while attacking with a
hitbox, the hitbox is placed in front of the character. -/
def CharacterBase.updateHitboxes (c : CharacterBase) : CharacterBase :=
  let c1 := { c with hurtbox := ⟨c.position.x - 30, c.position.y - 60, 60, 120⟩ }
  match c1.isAttacking, c1.currentHitbox with
  | true, some hitbox =>
    let placed : Rectangle :=
      ⟨c1.position.x + c1.direction * hitbox.width / 2, c1.position.y - hitbox.height / 2,
        hitbox.width, hitbox.height⟩
    { c1 with currentHitbox := some placed }
  | _, _ => c1

/-- Method `updateState(deltaTime)`: the `switch` dispatches to `updateAttackState`,
`updateHurtState` or `updateSpecialState`; neither `CharacterBase` nor `Mia` defines any of
the three, so the call is a `TypeError` in the states `attacking`, `hurt` and `special`.
Every other state falls through the `switch`. -/
def CharacterBase.updateState (c : CharacterBase) (_deltaTime : ℚ) :
    CharacterBase × Completion Unit :=
  if c.state = "attacking" then (c, .threw .typeError)
  else if c.state = "hurt" then (c, .threw .typeError)
  else if c.state = "special" then (c, .threw .typeError)
  else (c, .returned ())

/-- Method `update(deltaTime)`: input buffer, `currentSprite.update` (a `TypeError` when
`currentSprite` is `undefined`), hitboxes, state. `Mia.update` adds the update of the
particle emitter after it and is the same on the modelled state. -/
def CharacterBase.update (c : CharacterBase) (deltaTime : ℚ) :
    CharacterBase × Completion Unit :=
  let c1 := c.updateInputBuffer deltaTime
  match c1.currentSprite with
  | none => (c1, .threw .typeError)
  | some _ => c1.updateHitboxes.updateState deltaTime

/-- The callback of a timer, run when the timer fires. `elapsed` is the time in
milliseconds since `executeWaterDance` started and is read by `waterDanceFrame` only. -/
def CharacterBase.fire (c : CharacterBase) (callback : TimerCallback) (elapsed : ℚ) :
    CharacterBase × Completion Unit :=
  match callback with
  | .attackEnd =>
    if c.state = "attacking" then
      CharacterBase.changeState { c with isAttacking := false, currentHitbox := none } "idle"
    else (c, .returned ())
  | .invulnerabilityEnd => ({ c with isInvulnerable := false }, .returned ())
  | .specialEnd =>
    if c.state = "special" then
      CharacterBase.changeState { c with isAttacking := false, currentHitbox := none } "idle"
    else (c, .returned ())
  | .tideWaveEnd => ({ c with waterEmitterEmit := false }, .returned ())
  | .surferKickEnd =>
    ({ c with waterEmitterEmit := false, velocity := { c.velocity with x := 0 } },
      .returned ())
  | .waterDanceFrame =>
    if elapsed < 1000 then
      ({ c with waterEmitterEmit := true,
                timers := c.timers ++ [{ delay := 0, callback := .waterDanceFrame }] },
        .returned ())
    else ({ c with waterEmitterEmit := false }, .returned ())

/-- What can happen to a character that receives no command: a frame update or a timer
that fires. -/
inductive Passive where
  | update (deltaTime : ℚ) : Passive
  | fire (callback : TimerCallback) (elapsed : ℚ) : Passive

/-- One passive event; an exception ends the event and leaves the state reached. -/
def CharacterBase.passive (c : CharacterBase) : Passive → CharacterBase
  | .update deltaTime => (c.update deltaTime).1
  | .fire callback elapsed => (c.fire callback elapsed).1

/-- A sequence of passive events, first to last. -/
def CharacterBase.passives (c : CharacterBase) (events : List Passive) : CharacterBase :=
  events.foldl CharacterBase.passive c

/-! ## GameEngine: the tick -/

/-- Runs `f` on the elements of a list in order, threading the state; stops at the first
exception. -/
def forEachUntilThrow {σ α : Type} (f : σ → α → σ × Completion Unit) :
    List α → σ → σ × Completion Unit
  | [], s => (s, .returned ())
  | a :: rest, s =>
    match f s a with
    | (s1, .threw e) => (s1, .threw e)
    | (s1, .returned _) => forEachUntilThrow f rest s1

/-- The fields of a `GameEngine` that the tick reads and writes. `players` is the `players`
map in insertion order (id, player). `endMatchCalls` and `resolveHitCalls` count the calls
of `endMatch` and `resolveHit` made so far; they are not fields of the source. -/
structure GameEngine where
  players : List (String × CharacterBase)
  gameTime : ℚ
  isPaused : Bool
  tickerStarted : Bool
  gravity : ℚ
  groundLevel : ℚ
  endMatchCalls : Nat
  resolveHitCalls : Nat

/-- What the tick needs from outside the repository: the player methods that no class
defines (`playVictoryAnimation` among them) and the rectangle operations called on the
result of `getBounds`. -/
structure EngineEnv where
  methods : PlayerMethods
  playVictoryAnimation : CharacterBase → CharacterBase × Completion Unit
  intersects : Rectangle → Rectangle → Bool
  intersection : Rectangle → Rectangle → Option Rectangle

/-- The environment of the repository as it is: every missing method is a `TypeError`. -/
def EngineEnv.absent : EngineEnv :=
  { methods := PlayerMethods.absent
    playVictoryAnimation := fun c => (c, .threw .typeError)
    intersects := fun _ _ => false
    intersection := fun _ _ => none }

/-- State set up by the `GameEngine` constructor on a screen of the given height. -/
def GameEngine.new (screenHeight : ℚ) : GameEngine :=
  { players := [], gameTime := 99, isPaused := false, tickerStarted := true,
    gravity := 8 / 10, groundLevel := screenHeight - 100,
    endMatchCalls := 0, resolveHitCalls := 0 }

/-- Writes back the player object at position `i` of the map. -/
def GameEngine.setPlayer (g : GameEngine) (i : Nat) (c : CharacterBase) : GameEngine :=
  match g.players[i]? with
  | some entry => { g with players := g.players.set i (entry.1, c) }
  | none => g

/-- Method `pauseGame()`. -/
def GameEngine.pauseGame (g : GameEngine) : GameEngine :=
  { g with isPaused := true, tickerStarted := false }

/-- Method `resumeGame()`. -/
def GameEngine.resumeGame (g : GameEngine) : GameEngine :=
  { g with isPaused := false, tickerStarted := true }

/-- The loop of `determineWinner` over the remaining players, with the current
`highestHealth` and `winner` (the position in the map and the entry). -/
def GameEngine.determineWinner.loop :
    List (Nat × String × CharacterBase) → ℚ → Option (Nat × String × CharacterBase) →
      Option (Nat × String × CharacterBase)
  | [], _, winner => winner
  | entry :: rest, highestHealth, winner =>
    if entry.2.2.health > highestHealth then
      GameEngine.determineWinner.loop rest entry.2.2.health (some entry)
    else GameEngine.determineWinner.loop rest highestHealth winner

/-- Method `determineWinner()`: starts from `highestHealth = -1` and `winner = null`; the
result is the position, id and state of the winner, `none` for `null`. -/
def GameEngine.determineWinner (g : GameEngine) : Option (Nat × String × CharacterBase) :=
  GameEngine.determineWinner.loop g.players.enum (-1) none

/-- Method `triggerVictorySequence(winner)`. -/
def GameEngine.triggerVictorySequence (env : EngineEnv) (g : GameEngine)
    (winner : Option (Nat × String × CharacterBase)) : GameEngine × Completion Unit :=
  match winner with
  | none => (g, .returned ())
  | some entry =>
    match env.playVictoryAnimation entry.2.2 with
    | (c, r) => (g.setPlayer entry.1 c, r)

/-- Method `endMatch(reason)`. -/
def GameEngine.endMatch (env : EngineEnv) (g : GameEngine) : GameEngine × Completion Unit :=
  let g1 := { g.pauseGame with endMatchCalls := g.endMatchCalls + 1 }
  g1.triggerVictorySequence env g1.determineWinner

/-- The timer part of `update`. -/
def GameEngine.updateTimer (env : EngineEnv) (g : GameEngine) (deltaTime : ℚ) :
    GameEngine × Completion Unit :=
  if g.gameTime > 0 then
    let g1 := { g with gameTime := g.gameTime - deltaTime / 60 }
    if g1.gameTime ≤ 0 then GameEngine.endMatch env { g1 with gameTime := 0 }
    else (g1, .returned ())
  else (g, .returned ())

/-- Method `updatePlayer(player, deltaTime)`: gravity, position, ground, then the update of
the player itself. -/
def GameEngine.updatePlayer (g : GameEngine) (player : CharacterBase) (deltaTime : ℚ) :
    CharacterBase × Completion Unit :=
  let p1 :=
    if !player.isGrounded then
      { player with velocity :=
          { player.velocity with y := player.velocity.y + g.gravity * deltaTime } }
    else player
  let p2 := { p1 with position :=
      ⟨p1.position.x + p1.velocity.x * deltaTime, p1.position.y + p1.velocity.y * deltaTime⟩ }
  let p3 :=
    if p2.position.y > g.groundLevel then
      { p2 with position := { p2.position with y := g.groundLevel },
                velocity := { p2.velocity with y := 0 }, isGrounded := true }
    else p2
  p3.update deltaTime

/-- One iteration of the loop `for (const player of this.players.values())` of `update`. -/
def GameEngine.updatePlayerAt (deltaTime : ℚ) (g : GameEngine) (i : Nat) :
    GameEngine × Completion Unit :=
  match g.players[i]? with
  | none => (g, .returned ())
  | some entry =>
    match g.updatePlayer entry.2 deltaTime with
    | (c, r) => (g.setPlayer i c, r)

/-- Method `checkPlayerCollision(player1, player2)`. -/
def GameEngine.checkPlayerCollision (env : EngineEnv) (player1 player2 : CharacterBase) :
    Completion Bool :=
  match env.methods.getBounds player1 with
  | .threw e => .threw e
  | .returned b1 =>
    match env.methods.getBounds player2 with
    | .threw e => .threw e
    | .returned b2 => .returned (env.intersects b1 b2)

/-- Method `resolveCollision(player1, player2)`: both players are pushed apart by half the
width of the overlap. -/
def GameEngine.resolveCollision (env : EngineEnv) (player1 player2 : CharacterBase) :
    (CharacterBase × CharacterBase) × Completion Unit :=
  match env.methods.getBounds player1 with
  | .threw e => ((player1, player2), .threw e)
  | .returned b1 =>
    match env.methods.getBounds player2 with
    | .threw e => ((player1, player2), .threw e)
    | .returned b2 =>
      match env.intersection b1 b2 with
      | none => ((player1, player2), .returned ())
      | some overlap =>
        let dx := overlap.width * (5 / 10) *
          (SignType.sign (player2.position.x - player1.position.x) : ℚ)
        (({ player1 with position := { player1.position with x := player1.position.x - dx } },
          { player2 with position := { player2.position with x := player2.position.x + dx } }),
          .returned ())

/-- The index pairs `(i, j)` with `i < j < n`, in the order of the nested loops. -/
def indexPairs (n : Nat) : List (Nat × Nat) :=
  (List.range n).flatMap (fun i => ((List.range n).filter (fun j => i < j)).map (fun j => (i, j)))

/-- One iteration of the first nested loop of `checkCollisions`. -/
def GameEngine.collidePair (env : EngineEnv) (g : GameEngine) (ij : Nat × Nat) :
    GameEngine × Completion Unit :=
  match g.players[ij.1]?, g.players[ij.2]? with
  | some e1, some e2 =>
    match GameEngine.checkPlayerCollision env e1.2 e2.2 with
    | .threw e => (g, .threw e)
    | .returned false => (g, .returned ())
    | .returned true =>
      match GameEngine.resolveCollision env e1.2 e2.2 with
      | ((p1, p2), r) => ((g.setPlayer ij.1 p1).setPlayer ij.2 p2, r)
  | _, _ => (g, .returned ())

/-- One iteration of the inner loop of the hitbox check: `player` at position `i` against
`other` at position `j`. -/
def GameEngine.hitPair (env : EngineEnv) (i : Nat) (g : GameEngine) (j : Nat) :
    GameEngine × Completion Unit :=
  match g.players[i]?, g.players[j]? with
  | some e1, some e2 =>
    match GameEngine.checkHitboxCollision env.methods env.intersects e1.2 e2.2 with
    | .threw e => (g, .threw e)
    | .returned false => (g, .returned ())
    | .returned true =>
      match GameEngine.resolveHit env.methods e1.2 e2.2 with
      | ((a, d), r) =>
        (({ g with resolveHitCalls := g.resolveHitCalls + 1 }.setPlayer i a).setPlayer j d, r)
  | _, _ => (g, .returned ())

/-- One iteration of the outer loop of the hitbox check. -/
def GameEngine.hitboxesOf (env : EngineEnv) (g : GameEngine) (i : Nat) :
    GameEngine × Completion Unit :=
  match g.players[i]? with
  | none => (g, .returned ())
  | some entry =>
    if entry.2.isAttacking then
      forEachUntilThrow (GameEngine.hitPair env i)
        ((List.range g.players.length).filter (fun j => j != i)) g
    else (g, .returned ())

/-- Method `checkCollisions()`. -/
def GameEngine.checkCollisions (env : EngineEnv) (g : GameEngine) :
    GameEngine × Completion Unit :=
  match forEachUntilThrow (GameEngine.collidePair env) (indexPairs g.players.length) g with
  | (g1, .threw e) => (g1, .threw e)
  | (g1, .returned _) =>
    forEachUntilThrow (GameEngine.hitboxesOf env) (List.range g1.players.length) g1

/-- Method `GameEngine.update(deltaTime)`. The particle and parallax updates between the
players and the collisions touch no modelled state. -/
def GameEngine.update (env : EngineEnv) (g : GameEngine) (deltaTime : ℚ) :
    GameEngine × Completion Unit :=
  if g.isPaused then (g, .returned ())
  else
    match g.updateTimer env deltaTime with
    | (g1, .threw e) => (g1, .threw e)
    | (g1, .returned _) =>
      match forEachUntilThrow (GameEngine.updatePlayerAt deltaTime)
          (List.range g1.players.length) g1 with
      | (g2, .threw e) => (g2, .threw e)
      | (g2, .returned _) => g2.checkCollisions env

/-! ## InputHandler: the frame update and sequences of operations -/

/-- Method `InputHandler.update(deltaTime)` at time `currentTime`: the buffer timer
advances, the stale entries are purged, and `updateGamepad` then makes the calls
`handleGamepadButton` / `handleGamepadAxis` that the connected gamepads give rise to:
`gamepad` lists them as (player index, action, time of the call). An exception inside
`updateGamepad` ends the call after the calls already made. -/
def InputHandler.update (h : InputHandler) (deltaTime currentTime : ℚ)
    (gamepad : List (ℚ × String × ℚ)) : InputHandler :=
  gamepad.foldl (fun acc call => acc.handleGamepadButton call.1 call.2.1 call.2.2)
    (InputHandler.purge { h with bufferTimer := h.bufferTimer + deltaTime } currentTime)

/-- The calls that reach an `InputHandler`. -/
inductive InputOp where
  | addToBuffer (input : JSVal) (now : ℚ) : InputOp
  | handleKeyDown (keyCode : String) (now : ℚ) : InputOp
  | handleKeyUp (keyCode : String) : InputOp
  | handleGamepadButton (playerIndex : ℚ) (action : String) (now : ℚ) : InputOp
  | handleGamepadAxis (playerIndex : ℚ) (direction : String) (now : ℚ) : InputOp
  | update (deltaTime currentTime : ℚ) (gamepad : List (ℚ × String × ℚ)) : InputOp
  | reset : InputOp

/-- One call on an `InputHandler`. -/
def InputHandler.apply (h : InputHandler) : InputOp → InputHandler
  | .addToBuffer input now => h.addToBuffer input now
  | .handleKeyDown keyCode now => h.handleKeyDown keyCode now
  | .handleKeyUp keyCode => h.handleKeyUp keyCode
  | .handleGamepadButton playerIndex action now => h.handleGamepadButton playerIndex action now
  | .handleGamepadAxis playerIndex direction now => h.handleGamepadAxis playerIndex direction now
  | .update deltaTime currentTime gamepad => h.update deltaTime currentTime gamepad
  | .reset => h.reset

/-- A sequence of calls, first to last. -/
def InputHandler.run (h : InputHandler) (ops : List InputOp) : InputHandler :=
  ops.foldl InputHandler.apply h

/-- The entry that `addToBuffer(input)` pushes at time `now`: `{ input, timestamp }`. -/
def bufferEntry (input : JSVal) (now : ℚ) : JSVal :=
  .obj [("input", input), ("timestamp", .num now)]

/-- The first step of `checkSpecialMove(player)`: the entries whose `player` property is
strictly equal to `player`, mapped to their `action` property (before `slice(-8)`). -/
def InputHandler.playerActions (h : InputHandler) (player : JSVal) : List JSVal :=
  (h.inputBuffer.filter (fun input => input.getProp "player" == player)).map
    (fun input => input.getProp "action")

/-- The matching step of `checkSpecialMove` on the list of a player's actions: the last 8
of them are matched against the configured patterns in declaration order. -/
def matchStep (actions : List JSVal) : Option String :=
  match specialMovePatterns.find? (fun entry => matchesPattern (sliceLast 8 actions) entry.2) with
  | some entry => some entry.1
  | none => none

/-! ## Mia: sequences of operations -/

/-- The calls that reach a `Mia`: its methods, the timer callbacks, and the physics step
of the engine. -/
inductive MiaOp where
  | move (direction : ℚ) : MiaOp
  | jump : MiaOp
  | attack (type : String) : MiaOp
  | takeDamage (amount : ℚ) : MiaOp
  | executeSpecialMove (moveName : String) : MiaOp
  | update (deltaTime : ℚ) : MiaOp
  | defeat : MiaOp
  | victory : MiaOp
  | reset : MiaOp
  | fire (callback : TimerCallback) (elapsed : ℚ) : MiaOp
  | updatePlayer (g : GameEngine) (deltaTime : ℚ) : MiaOp

/-- Whether a call is other than `executeSpecialMove` with a name inherited from
`Object.prototype`. -/
def MiaOp.ownName : MiaOp → Bool
  | .executeSpecialMove moveName => !objectPrototypeKeys.contains moveName
  | _ => true

/-- One call on a `Mia`; an exception ends the call and leaves the state reached. -/
def Mia.apply (c : CharacterBase) : MiaOp → CharacterBase
  | .move direction => (c.move direction).1
  | .jump => c.jump.1
  | .attack type => (c.attack type).1
  | .takeDamage amount => (c.takeDamage amount).1
  | .executeSpecialMove moveName => (Mia.executeSpecialMove c moveName).1
  | .update deltaTime => (c.update deltaTime).1
  | .defeat => c.defeat.1
  | .victory => c.victory.1
  | .reset => c.reset.1
  | .fire callback elapsed => (c.fire callback elapsed).1
  | .updatePlayer g deltaTime => (g.updatePlayer c deltaTime).1

/-- A sequence of calls on a `Mia`, first to last. -/
def Mia.run (c : CharacterBase) (ops : List MiaOp) : CharacterBase :=
  ops.foldl Mia.apply c

/-! ## Concrete scenarios -/

/-- Player 1 presses down, releases it, then presses down, up and special
(`KeyS`, `KeyS`, `KeyW`, `KeyO`), 16 ms apart. -/
def superComboKeys : InputHandler :=
  ((((InputHandler.new.handleKeyDown "KeyS" 0).handleKeyUp "KeyS").handleKeyDown "KeyS" 16
    ).handleKeyDown "KeyW" 32).handleKeyDown "KeyO" 48

/-- The actions recorded for `player`: of the `{ player, action }` objects handed to
`addToBuffer` and still in the buffer, those of `player`, oldest first. -/
def InputHandler.recordedActions (h : InputHandler) (player : JSVal) : List JSVal :=
  ((h.inputBuffer.map (fun entry => entry.getProp "input")).filter
    (fun input => input.getProp "player" == player)).map (fun input => input.getProp "action")

/-- A character that has called `attack('lightPunch')` once. -/
def afterLightPunch : CharacterBase := (CharacterBase.new.attack "lightPunch").1

/-- A character that was hit once (5 damage) and then celebrated: invulnerable, state
`victory`. -/
def invulnerableVictor : CharacterBase := ((CharacterBase.new.takeDamage 5).1.victory).1

/-- A character whose health was brought to 0 by one hit. -/
def defeated : CharacterBase := (CharacterBase.new.takeDamage 100).1

/-- A `Mia` that has called `attack('lightPunch')` once and whose meter was then set
to 25. -/
def miaAfterLightPunch : CharacterBase :=
  { (Mia.new.attack "lightPunch").1 with specialMeter := 25 }

/-- Player methods under which the attacker reports `lightPunch` as its current attack,
knockback and combo counting change nothing, and the bounds are the hurtbox. -/
def lightPunchMethods : PlayerMethods :=
  { getCurrentAttack := fun _ => .returned (setupAttacks.lookup "lightPunch")
    applyKnockback := fun c _ _ => (c, .returned ())
    incrementCombo := fun c => (c, .returned ())
    getBounds := fun c => .returned c.hurtbox }

/-- A fresh character that is blocking. -/
def blockingDefender : CharacterBase := { CharacterBase.new with isBlocking := true }

/-- A fresh `Mia` whose meter was set to 20. -/
def miaMeter20 : CharacterBase := { Mia.new with specialMeter := 20 }

/-- A character that was hit once for 5 damage: health 95, state `hurt`. -/
def hurtOnce : CharacterBase := (CharacterBase.new.takeDamage 5).1

/-- A `Mia` that was hit once for 5 damage (state `hurt`) and whose meter was then set
to 25. -/
def miaHurtMeter25 : CharacterBase := { (Mia.new.takeDamage 5).1 with specialMeter := 25 }

/-- A character that was hit once for 40 damage: health 60. -/
def health60 : CharacterBase := (CharacterBase.new.takeDamage 40).1

/-- A character that was hit once for 60 damage: health 40. -/
def health40 : CharacterBase := (CharacterBase.new.takeDamage 60).1

/-- An engine on a screen of height 720, timer at 99, with a defeated player (health 0)
and a fresh one (health 100). -/
def knockoutEngine : GameEngine :=
  { GameEngine.new 720 with players := [("p1", defeated), ("p2", CharacterBase.new)] }

/-- An engine with two fresh players (health 100 each). -/
def evenEngine : GameEngine :=
  { GameEngine.new 720 with players := [("p1", CharacterBase.new), ("p2", CharacterBase.new)] }

/-- Ten punches of player 1, recorded one after the other: a full buffer. -/
def fullOfPlayer1 : InputHandler :=
  InputHandler.new.run (List.replicate 10 (.addToBuffer (mkInput 1 "punch") 0))

/-- Ten actions of a player: the `hadoken` motion first, then six blocks. -/
def hadokenThenBlocks : List JSVal :=
  [.str "down", .str "downforward", .str "forward", .str "punch",
   .str "block", .str "block", .str "block", .str "block", .str "block", .str "block"]

/-- Eight actions that contain both the `shoryuken` and the `hadoken` motion. -/
def shoryukenThenHadoken : List JSVal :=
  [.str "forward", .str "down", .str "downforward", .str "punch",
   .str "down", .str "downforward", .str "forward", .str "punch"]

/-- A buffer with one entry recorded at time 0. -/
def oneEntryAtZero : InputHandler :=
  InputHandler.new.addToBuffer (mkInput 1 "punch") 0

/-- A fresh blocking character whose health has been set to `health`. -/
def blockingAt (health : ℚ) : CharacterBase := { blockingDefender with health := health }

/-- The fields by which a tick can end the match: the pause flag, the number of `endMatch`
calls and the timer. -/
def GameEngine.matchFields (g : GameEngine) : Bool × Nat × ℚ :=
  (g.isPaused, g.endMatchCalls, g.gameTime)

/-! ## Lemmas on binary64 rounding -/

theorem roundHalfEven_of_abs_sub_lt (t : ℚ) (m : ℤ) (h : |t - m| < 1 / 2) :
    roundHalfEven t = m := by
  obtain ⟨h1, h2⟩ := abs_lt.1 h
  unfold roundHalfEven
  by_cases hge : (m : ℚ) ≤ t
  · have hf : ⌊t⌋ = m := Int.floor_eq_iff.2 ⟨hge, by linarith⟩
    rw [hf]
    simp only [h2, if_true]
  · have hlt : t < m := not_le.1 hge
    have hf : ⌊t⌋ = m - 1 := Int.floor_eq_iff.2 ⟨by push_cast; linarith, by push_cast; linarith⟩
    rw [hf]
    have hn : ¬ (t - ((m - 1 : ℤ) : ℚ) < 1 / 2) := by push_cast; linarith
    have hp : 1 / 2 < t - ((m - 1 : ℤ) : ℚ) := by push_cast; linarith
    simp only [hn, hp, if_true, if_false]
    ring

theorem roundHalfEven_intCast (m : ℤ) : roundHalfEven (m : ℚ) = m :=
  roundHalfEven_of_abs_sub_lt m m (by norm_num)

theorem floor_le_roundHalfEven (t : ℚ) : ⌊t⌋ ≤ roundHalfEven t := by
  unfold roundHalfEven
  split_ifs <;> omega

theorem le_roundHalfEven (t : ℚ) (m : ℤ) (h : (m : ℚ) ≤ t) : m ≤ roundHalfEven t :=
  le_trans (Int.le_floor.2 h) (floor_le_roundHalfEven t)

theorem roundHalfEven_le (t : ℚ) (m : ℤ) (h : t ≤ m) : roundHalfEven t ≤ m := by
  rcases eq_or_lt_of_le h with heq | hlt
  · rw [heq, roundHalfEven_intCast]
  · have hf : ⌊t⌋ < m := Int.floor_lt.2 hlt
    unfold roundHalfEven
    split_ifs <;> omega

theorem Float64.log_eq (x : ℚ) (e : ℤ) (h1 : (2 : ℚ) ^ e ≤ |x|) (h2 : |x| < (2 : ℚ) ^ (e + 1)) :
    Int.log 2 |x| = e := by
  have hpos : (0 : ℚ) < |x| := lt_of_lt_of_le (zpow_pos (by norm_num) e) h1
  have hb : (1 : ℕ) < 2 := by norm_num
  have ha : e ≤ Int.log 2 |x| := (Int.zpow_le_iff_le_log hb hpos).1 (by exact_mod_cast h1)
  have hc : Int.log 2 |x| < e + 1 := (Int.lt_zpow_iff_log_lt hb hpos).1 (by exact_mod_cast h2)
  omega

theorem Float64.quantum_eq (x : ℚ) (e : ℤ) (h1 : (2 : ℚ) ^ e ≤ |x|)
    (h2 : |x| < (2 : ℚ) ^ (e + 1)) (hlo : -1022 ≤ e) : Float64.quantum x = e - 52 := by
  unfold Float64.quantum
  rw [Float64.log_eq x e h1 h2, max_eq_left hlo]

/-- The spacing around `x` is at most that of any double format that reaches `|x|`. -/
theorem Float64.quantum_le (x : ℚ) (q : ℤ) (hx0 : x ≠ 0) (hq : -1074 ≤ q)
    (hx : |x| < (2 : ℚ) ^ (53 + q)) : Float64.quantum x ≤ q := by
  unfold Float64.quantum
  have hb : (1 : ℕ) < 2 := by norm_num
  have hlog : Int.log 2 |x| < 53 + q :=
    (Int.lt_zpow_iff_log_lt hb (abs_pos.2 hx0)).1 (by exact_mod_cast hx)
  have := max_le (a := Int.log 2 |x|) (b := -1022) (c := q + 52) (by omega) (by omega)
  omega

/-- The value to which `x` rounds is `y` when `y` is on the grid around `x` and nearer than
half a spacing. -/
theorem Float64.round_eq_of_abs_sub_lt (x y : ℚ) (m : ℤ)
    (hy : y = m * 2 ^ Float64.quantum x) (hnear : |x - y| < 2 ^ Float64.quantum x / 2)
    (hfin : |y| < (2 : ℚ) ^ (1024 : ℕ)) : Float64.round x = .finite y := by
  have hpos : (0 : ℚ) < 2 ^ Float64.quantum x := zpow_pos (by norm_num) _
  have hm : roundHalfEven (x / 2 ^ Float64.quantum x) = m := by
    apply roundHalfEven_of_abs_sub_lt
    have e : x / 2 ^ Float64.quantum x - m = (x - y) / 2 ^ Float64.quantum x := by
      rw [hy]
      field_simp
      ring
    rw [e, abs_div, abs_of_pos hpos, div_lt_iff₀ hpos]
    linarith
  have hn : Float64.nearest x = y := by
    unfold Float64.nearest
    rw [hm, hy]
  unfold Float64.round
  simp only [hn, not_le.2 hfin, if_false]

theorem Float64.round_zero : Float64.round 0 = .finite 0 := by
  apply Float64.round_eq_of_abs_sub_lt 0 0 0
  · simp
  · simp only [sub_zero, abs_zero]
    exact div_pos (zpow_pos (by norm_num) _) (by norm_num)
  · simp

/-- A double rounds to itself: `m * 2 ^ q` with fewer than 53 bits in `m` and `q` within
the exponent range. -/
theorem Float64.round_scaled (m q : ℤ) (hm : |m| < 2 ^ 53) (hq1 : -1074 ≤ q) (hq2 : q ≤ 971) :
    Float64.round (m * 2 ^ q) = .finite (m * 2 ^ q) := by
  rcases eq_or_ne m 0 with rfl | hm0
  · simpa using Float64.round_zero
  have h2 : (0 : ℚ) < 2 := by norm_num
  have hq : (0 : ℚ) < 2 ^ q := zpow_pos h2 q
  have hmq : |(m : ℚ)| < 2 ^ (53 : ℕ) := by exact_mod_cast hm
  have habs : |(m : ℚ) * 2 ^ q| < (2 : ℚ) ^ (53 + q) := by
    rw [abs_mul, abs_of_pos hq, zpow_add₀ (by norm_num : (2 : ℚ) ≠ 0)]
    exact mul_lt_mul_of_pos_right (by exact_mod_cast hmq) hq
  have hx0 : (m : ℚ) * 2 ^ q ≠ 0 := mul_ne_zero (by exact_mod_cast hm0) (ne_of_gt hq)
  have hle := Float64.quantum_le (m * 2 ^ q) q hx0 hq1 habs
  apply Float64.round_eq_of_abs_sub_lt _ _ (m * 2 ^ (q - Float64.quantum (m * 2 ^ q)).toNat)
  · have ht : ((q - Float64.quantum (↑m * 2 ^ q)).toNat : ℤ) = q - Float64.quantum (↑m * 2 ^ q) :=
      Int.toNat_of_nonneg (by omega)
    push_cast
    rw [mul_assoc, ← zpow_natCast, ht, ← zpow_add₀ (by norm_num : (2 : ℚ) ≠ 0)]
    congr 2
    ring
  · simp only [sub_self, abs_zero]
    exact div_pos (zpow_pos h2 _) h2
  · refine lt_of_lt_of_le habs ?_
    rw [← zpow_natCast]
    exact zpow_le_zpow_right₀ (by norm_num) (by push_cast; omega)

theorem Float64.round_intCast (n : ℤ) (hn : |n| < 2 ^ 53) :
    Float64.round (n : ℚ) = .finite n := by
  have h := Float64.round_scaled n 0 hn (by norm_num) (by norm_num)
  simpa using h

theorem Float64.round_natCast (n : ℕ) (hn : n < 2 ^ 53) :
    Float64.round (n : ℚ) = .finite n := by
  have h := Float64.round_intCast (n : ℤ) (by rw [abs_of_nonneg (by positivity)]; exact_mod_cast hn)
  simpa using h

theorem Float64.nearest_nonneg (x : ℚ) (hx : 0 ≤ x) : 0 ≤ Float64.nearest x := by
  unfold Float64.nearest
  have hpos : (0 : ℚ) < 2 ^ Float64.quantum x := zpow_pos (by norm_num) _
  have h := le_roundHalfEven (x / 2 ^ Float64.quantum x) 0 (by simpa using div_nonneg hx hpos.le)
  exact mul_nonneg (by exact_mod_cast h) hpos.le

theorem Float64.nearest_nonpos (x : ℚ) (hx : x ≤ 0) : Float64.nearest x ≤ 0 := by
  unfold Float64.nearest
  have hpos : (0 : ℚ) < 2 ^ Float64.quantum x := zpow_pos (by norm_num) _
  have h := roundHalfEven_le (x / 2 ^ Float64.quantum x) 0
    (by simpa using div_nonpos_of_nonpos_of_nonneg hx hpos.le)
  exact mul_nonpos_of_nonpos_of_nonneg (by exact_mod_cast h) hpos.le

/-- A double `m * 2 ^ q` written on the finer grid `2 ^ p`, `p <= q`. -/
theorem Float64.scaled_on_grid (m q p : ℤ) (hpq : p ≤ q) :
    (m : ℚ) * 2 ^ q = ((m * 2 ^ (q - p).toNat : ℤ) : ℚ) * 2 ^ p := by
  have ht : ((q - p).toNat : ℤ) = q - p := Int.toNat_of_nonneg (by omega)
  push_cast
  rw [mul_assoc, ← zpow_natCast, ht, ← zpow_add₀ (by norm_num : (2 : ℚ) ≠ 0)]
  congr 2
  ring

/-- Rounding does not carry a value above a double that bounds it: for `x <= y` with `y` the
double `m * 2 ^ q`, `y >= 0`, the nearest grid value of `x` is at most `y`. -/
theorem Float64.nearest_le_of_le (x : ℚ) (m q : ℤ) (hm0 : 0 ≤ m) (hm : m < 2 ^ 53)
    (hq : -1074 ≤ q) (hxy : x ≤ m * 2 ^ q) : Float64.nearest x ≤ m * 2 ^ q := by
  have hq0 : (0 : ℚ) < 2 ^ q := zpow_pos (by norm_num) q
  rcases le_or_lt x 0 with hx | hx
  · exact le_trans (Float64.nearest_nonpos x hx) (mul_nonneg (by exact_mod_cast hm0) hq0.le)
  · have hmq : (m : ℚ) < 2 ^ (53 : ℕ) := by exact_mod_cast hm
    have habs : |x| < (2 : ℚ) ^ (53 + q) := by
      rw [abs_of_pos hx, zpow_add₀ (by norm_num : (2 : ℚ) ≠ 0)]
      exact lt_of_le_of_lt hxy (mul_lt_mul_of_pos_right (by exact_mod_cast hmq) hq0)
    have hle := Float64.quantum_le x q (ne_of_gt hx) hq habs
    have hpos : (0 : ℚ) < 2 ^ Float64.quantum x := zpow_pos (by norm_num) _
    rw [Float64.scaled_on_grid m q (Float64.quantum x) hle] at hxy ⊢
    unfold Float64.nearest
    have h := roundHalfEven_le (x / 2 ^ Float64.quantum x) _ ((div_le_iff₀ hpos).2 hxy)
    exact mul_le_mul_of_nonneg_right (by exact_mod_cast h) hpos.le

/-- Rounding does not carry a value below a double that it reaches: for `y <= x` with `y` the
double `m * 2 ^ q`, `y > 0`, the nearest grid value of `x` is at least `y`. -/
theorem Float64.le_nearest_of_le (x : ℚ) (m q : ℤ) (hm0 : 0 < m) (hm : m < 2 ^ 53)
    (hq : -1074 ≤ q) (hyx : (m : ℚ) * 2 ^ q ≤ x) : (m : ℚ) * 2 ^ q ≤ Float64.nearest x := by
  have h2 : (2 : ℚ) ≠ 0 := by norm_num
  have hq0 : (0 : ℚ) < 2 ^ q := zpow_pos (by norm_num) q
  have hpos : (0 : ℚ) < 2 ^ Float64.quantum x := zpow_pos (by norm_num) _
  have hx : 0 < x := lt_of_lt_of_le (mul_pos (by exact_mod_cast hm0) hq0) hyx
  rcases le_or_lt (Float64.quantum x) q with hle | hlt
  · rw [Float64.scaled_on_grid m q (Float64.quantum x) hle] at hyx ⊢
    unfold Float64.nearest
    have h := le_roundHalfEven (x / 2 ^ Float64.quantum x) _ ((le_div_iff₀ hpos).2 hyx)
    exact mul_le_mul_of_nonneg_right (by exact_mod_cast h) hpos.le
  · have hlog : Float64.quantum x = Int.log 2 |x| - 52 := by
      unfold Float64.quantum at hlt ⊢
      rcases le_total (Int.log 2 |x|) (-1022) with hl | hl
      · rw [max_eq_right hl] at hlt
        omega
      · rw [max_eq_left hl]
    have hself : (2 : ℚ) ^ Int.log 2 |x| ≤ x := by
      have h := Int.zpow_log_le_self (b := 2) (r := |x|) (by norm_num) (abs_pos.2 (ne_of_gt hx))
      have h1 : (2 : ℚ) ^ Int.log 2 |x| ≤ |x| := by exact_mod_cast h
      exact le_trans h1 (abs_of_pos hx).le
    have hgrid : (2 : ℚ) ^ Int.log 2 |x| = ((2 ^ 52 : ℤ) : ℚ) * 2 ^ Float64.quantum x := by
      have e52 : ((2 ^ 52 : ℤ) : ℚ) = (2 : ℚ) ^ (52 : ℤ) := by norm_num
      rw [hlog, e52, ← zpow_add₀ h2]
      congr 1
      ring
    have hlow : (2 : ℚ) ^ Int.log 2 |x| ≤ Float64.nearest x := by
      rw [hgrid] at hself ⊢
      unfold Float64.nearest
      have h := le_roundHalfEven (x / 2 ^ Float64.quantum x) _ ((le_div_iff₀ hpos).2 hself)
      exact mul_le_mul_of_nonneg_right (by exact_mod_cast h) hpos.le
    refine le_trans ?_ hlow
    have hmq : (m : ℚ) ≤ 2 ^ (53 : ℕ) := by exact_mod_cast hm.le
    calc (m : ℚ) * 2 ^ q ≤ 2 ^ (53 : ℕ) * 2 ^ q := mul_le_mul_of_nonneg_right hmq hq0.le
      _ = 2 ^ (53 + q) := by rw [zpow_add₀ h2]; norm_cast
      _ ≤ 2 ^ Int.log 2 |x| := zpow_le_zpow_right₀ (by norm_num) (by omega)

/-- For a result `x <= y`, with `y` a double below `b`: the rounded result is below `b`. -/
theorem Float64.round_lt_of_le (x b : ℚ) (m q : ℤ) (hm0 : 0 ≤ m) (hm : m < 2 ^ 53)
    (hq1 : -1074 ≤ q) (hq2 : q ≤ 971) (hxy : x ≤ m * 2 ^ q) (hb : (m : ℚ) * 2 ^ q < b) :
    Float64.lt (Float64.round x) (.finite b) = true := by
  have hle := Float64.nearest_le_of_le x m q hm0 hm hq1 hxy
  have hq0 : (0 : ℚ) < 2 ^ q := zpow_pos (by norm_num) q
  have hfin : (m : ℚ) * 2 ^ q < 2 ^ (1024 : ℕ) := by
    have hmq : (m : ℚ) < 2 ^ (53 : ℕ) := by exact_mod_cast hm
    calc (m : ℚ) * 2 ^ q < 2 ^ (53 : ℕ) * 2 ^ q := mul_lt_mul_of_pos_right hmq hq0
      _ = 2 ^ (53 + q) := by rw [zpow_add₀ (by norm_num : (2 : ℚ) ≠ 0)]; norm_cast
      _ ≤ 2 ^ ((1024 : ℕ) : ℤ) := zpow_le_zpow_right₀ (by norm_num) (by push_cast; omega)
      _ = 2 ^ (1024 : ℕ) := zpow_natCast 2 1024
  unfold Float64.round
  split_ifs with hov hx
  · exfalso
    have hn := Float64.nearest_nonneg x hx.le
    rw [abs_of_nonneg hn] at hov
    linarith
  · rfl
  · simp only [Float64.lt, decide_eq_true_eq]
    linarith

/-- For a result `x >= y`, with `y` a double that is at least `b`: the rounded result is not
below `b`. -/
theorem Float64.round_not_lt_of_le (x b : ℚ) (m q : ℤ) (hm0 : 0 < m) (hm : m < 2 ^ 53)
    (hq1 : -1074 ≤ q) (hyx : (m : ℚ) * 2 ^ q ≤ x) (hb : b ≤ (m : ℚ) * 2 ^ q) :
    Float64.lt (Float64.round x) (.finite b) = false := by
  have hle := Float64.le_nearest_of_le x m q hm0 hm hq1 hyx
  have hq0 : (0 : ℚ) < 2 ^ q := zpow_pos (by norm_num) q
  have hx : 0 < x := lt_of_lt_of_le (mul_pos (by exact_mod_cast hm0) hq0) hyx
  unfold Float64.round
  split_ifs with hov
  · rfl
  · simp only [Float64.lt, decide_eq_false_iff_not, not_lt]
    linarith

theorem Float64.round_fifth :
    Float64.round (2 / 10) = .finite (3602879701896397 / 2 ^ 54) := by
  decide!

theorem Float64.fifteen_frames :
    Float64.mul (.finite 15) (Float64.round (1667 / 100)) =
      .finite (4398926120406221 / 2 ^ 44) := by
  decide!

/-- The test of the purge next to its bound, on doubles. An entry recorded at the double
0.2 is not recent at 250.25, though its exact age is below the exact product of 15 and the
double 16.67: the rounding decides. An entry recorded at the double 0.3 is recent at the
double 250.35, though in decimals 250.35 - 0.3 is 15 * 16.67. -/
theorem InputHandler.isRecent_at_bound :
    InputHandler.isRecent 15 (1001 / 4) (3602879701896397 / 2 ^ 54) = false ∧
    (1001 : ℚ) / 4 - 3602879701896397 / 2 ^ 54 < 15 * (1173046965441659 / 2 ^ 46) ∧
    InputHandler.isRecent 15 (8808407552439091 / 2 ^ 45) (5404319552844595 / 2 ^ 54) = true ∧
    (5007 : ℚ) / 20 - 3 / 10 = 15 * (1667 / 100) := by
  refine ⟨by decide!, by norm_num, by decide!, by norm_num⟩

theorem Float64.ofNat_eq (n : Nat) : (OfNat.ofNat n : Float64) = .finite (n : ℚ) := rfl

theorem Float64.lt_def (a b : Float64) : a < b ↔ Float64.lt a b = true := Iff.rfl

theorem Float64.nan_not_lt (b : Float64) : ¬ (Float64.nan < b) := by
  rw [Float64.lt_def]
  cases b <;> simp [Float64.lt]

theorem Float64.finite_lt_finite (a b : ℚ) : Float64.finite a < Float64.finite b ↔ a < b := by
  rw [Float64.lt_def]
  simp [Float64.lt]

theorem Float64.ofNat_lt_finite (n : Nat) (b : ℚ) :
    (OfNat.ofNat n : Float64) < Float64.finite b ↔ (n : ℚ) < b :=
  Float64.finite_lt_finite n b

theorem Float64.sub_self_finite (a : ℚ) : Float64.finite a - Float64.finite a = 0 := by
  show Float64.sub (.finite a) (.finite a) = .finite ((0 : ℕ) : ℚ)
  simp [Float64.sub, Float64.round_zero]

/-! ## Lemmas on `objectLookup` -/

theorem objectLookup_of_lookup {α : Type} (table : List (String × α)) (key : String)
    (value : α) (h : table.lookup key = some value) : objectLookup table key = .own value := by
  unfold objectLookup
  rw [h]

theorem objectLookup_missing_iff {α : Type} (table : List (String × α)) (key : String) :
    objectLookup table key = .missing ↔
      table.lookup key = none ∧ key ∉ objectPrototypeKeys := by
  unfold objectLookup
  cases table.lookup key with
  | none => split_ifs with h <;> simp [h]
  | some v => simp

theorem objectLookup_inherited_iff {α : Type} (table : List (String × α)) (key : String) :
    objectLookup table key = .inherited ↔
      table.lookup key = none ∧ key ∈ objectPrototypeKeys := by
  unfold objectLookup
  cases table.lookup key with
  | none => split_ifs with h <;> simp [h]
  | some v => simp

/-! ## Lemmas on `matchesPattern` -/

theorem matchesPattern.inner_iff {α : Type} [DecidableEq α] (inputs pattern : List α) (i : Nat) :
    ∀ n j, matchesPattern.inner inputs pattern i n j = true ↔
      ∀ t, t < n → inputs[i + (j + t)]? = pattern[j + t]? := by
  intro n
  induction n with
  | zero => intro j; simp [matchesPattern.inner]
  | succ n ih =>
    intro j
    simp only [matchesPattern.inner]
    constructor
    · intro h t ht
      by_cases hne : (inputs[i + j]? != pattern[j]?) = true
      · simp [hne] at h
      · simp only [hne] at h
        have h0 : inputs[i + j]? = pattern[j]? := by simpa using hne
        rcases Nat.eq_zero_or_pos t with rfl | hpos
        · simpa using h0
        · have hrec := (ih (j + 1)).1 (by simpa using h) (t - 1) (by omega)
          have e : j + 1 + (t - 1) = j + t := by omega
          rw [e] at hrec
          exact hrec
    · intro h
      have h0 : inputs[i + j]? = pattern[j]? := by simpa using h 0 (by omega)
      have hne : ¬ ((inputs[i + j]? != pattern[j]?) = true) := by simp [h0]
      simp only [hne]
      simp only [Bool.false_eq_true, if_false]
      apply (ih (j + 1)).2
      intro t ht
      have hnext := h (t + 1) (by omega)
      have e : j + 1 + t = j + (t + 1) := by omega
      rw [e]
      exact hnext

theorem matchesPattern.outer_iff {α : Type} [DecidableEq α] (inputs pattern : List α) :
    ∀ n i, matchesPattern.outer inputs pattern n i = true ↔
      ∃ k, i ≤ k ∧ k < i + n ∧
        matchesPattern.inner inputs pattern k pattern.length 0 = true := by
  intro n
  induction n with
  | zero =>
    intro i
    simp only [matchesPattern.outer, Bool.false_eq_true, false_iff]
    rintro ⟨k, h1, h2, _⟩
    omega
  | succ n ih =>
    intro i
    simp only [matchesPattern.outer]
    by_cases hi : matchesPattern.inner inputs pattern i pattern.length 0 = true
    · simp only [hi, if_true, true_iff]
      exact ⟨i, le_refl i, by omega, hi⟩
    · simp only [hi, Bool.false_eq_true, if_false]
      rw [ih (i + 1)]
      constructor
      · rintro ⟨k, h1, h2, h3⟩
        exact ⟨k, by omega, by omega, h3⟩
      · rintro ⟨k, h1, h2, h3⟩
        have hk : k ≠ i := fun e => hi (e ▸ h3)
        exact ⟨k, by omega, by omega, h3⟩

/-! ## Lemmas on `changeState` and `takeDamage` -/

/-- What `changeState` writes is `state` and `currentSprite` only: health and maximum stay. -/
theorem CharacterBase.changeState_health (c : CharacterBase) (s : String) :
    (c.changeState s).1.health = c.health ∧ (c.changeState s).1.maxHealth = c.maxHealth := by
  unfold CharacterBase.changeState
  split_ifs <;> cases c.currentSprite <;> simp

/-- With a current sprite and a target that is a sprite key, `changeState` returns. -/
theorem CharacterBase.changeState_of_sprite (c : CharacterBase) (s k : String)
    (hk : c.currentSprite = some k) (hs : s ∈ spriteKeys) :
    c.changeState s =
      (if c.state = s then c else { c with state := s, currentSprite := some s },
        .returned ()) := by
  unfold CharacterBase.changeState
  split_ifs <;> simp [hk]

/-- The health after `takeDamage(amount)`, whatever else happens in the call. -/
theorem CharacterBase.takeDamage_health (c : CharacterBase) (a : ℚ) :
    (c.takeDamage a).1.health =
        max 0 (c.health - (if c.isBlocking then a * (2 / 10) else a)) ∧
      (c.takeDamage a).1.maxHealth = c.maxHealth := by
  unfold CharacterBase.takeDamage CharacterBase.defeat
  simp only []
  generalize (if c.isBlocking = true then a * (2 / 10) else a) = d
  have key := CharacterBase.changeState_health
    { c with health := max 0 (c.health - d), isInvulnerable := true } "hurt"
  revert key
  generalize CharacterBase.changeState
    { c with health := max 0 (c.health - d), isInvulnerable := true } "hurt" = r
  rcases r with ⟨c1, v | e⟩
  · intro key
    simp only [] at key ⊢
    split_ifs
    · have k2 := CharacterBase.changeState_health
        { c1 with timers := c1.timers ++ [{ delay := 1000, callback := .invulnerabilityEnd }] }
        "defeat"
      simp only [] at k2
      rw [k2.1, k2.2]
      exact key
    · exact key
  · intro key
    exact key

/-- A hit that leaves health above 0 on a non-blocking character that has a current sprite:
health drops by the amount, the state is `hurt`, the call returns. -/
theorem CharacterBase.takeDamage_hurt_of_sprite (c : CharacterBase) (a : ℚ) (k : String)
    (hk : c.currentSprite = some k) (hb : c.isBlocking = false) (ha : a < c.health) :
    (c.takeDamage a).1.health = c.health - a ∧ (c.takeDamage a).1.state = "hurt" ∧
      (c.takeDamage a).2 = .returned () := by
  have hpos : ¬ (max 0 (c.health - a) ≤ 0) := by
    rw [not_le]
    exact lt_max_of_lt_right (by linarith)
  have hmax : max 0 (c.health - a) = c.health - a := max_eq_right (by linarith)
  unfold CharacterBase.takeDamage
  simp only [hb, Bool.false_eq_true, if_false]
  rw [CharacterBase.changeState_of_sprite _ "hurt" k (by simpa using hk) (by decide)]
  have hna : ¬ c.health ≤ a := not_le.mpr ha
  by_cases hs : c.state = "hurt"
  · simp [hs, hpos, hmax, hna]
  · simp [hs, hpos, hmax, hna]

/-- With a current sprite, a known move and a meter that is not below the cost,
`executeSpecialMove` returns `true`, deducts the cost, and sets `special`, `isAttacking` and
the hitbox. -/
theorem Mia.executeSpecialMove_of_sprite (c : CharacterBase) (moveName k : String)
    (move : SpecialMoveDef) (hk : c.currentSprite = some k)
    (hm : Mia.setupSpecialMoves.lookup moveName = some move)
    (hge : ¬ c.specialMeter < move.meterCost) :
    (Mia.executeSpecialMove c moveName).2 = .returned true ∧
      (Mia.executeSpecialMove c moveName).1.specialMeter = c.specialMeter - move.meterCost ∧
      (Mia.executeSpecialMove c moveName).1.state = "special" ∧
      (Mia.executeSpecialMove c moveName).1.isAttacking = true ∧
      (Mia.executeSpecialMove c moveName).1.currentHitbox = some move.hitbox := by
  unfold Mia.executeSpecialMove
  simp only [objectLookup_of_lookup _ _ _ hm, hge, if_false]
  rw [CharacterBase.changeState_of_sprite _ "special" k (by simpa using hk) (by decide)]
  simp only [Mia.executeTideWave, Mia.executeSurferKick, Mia.executeWaterDance]
  by_cases hs : c.state = "special" <;> simp only [hs, if_true, if_false] <;>
    split_ifs <;> simp [hs]

/-! ## The concrete scenarios, evaluated -/

theorem afterLightPunch_eq :
    afterLightPunch = { CharacterBase.new with
      isAttacking := true, currentHitbox := some ⟨-30, -50, 60, 40⟩, state := "attacking",
      currentSprite := none } := by
  decide

theorem invulnerableVictor_eq :
    invulnerableVictor = { CharacterBase.new with
      health := 95, isInvulnerable := true, state := "victory",
      currentSprite := some "victory",
      timers := [{ delay := 1000, callback := .invulnerabilityEnd }] } := by
  simp +decide [invulnerableVictor, CharacterBase.takeDamage, CharacterBase.victory,
    CharacterBase.changeState, CharacterBase.new]
  norm_num

theorem defeated_eq :
    defeated = { CharacterBase.new with
      health := 0, isInvulnerable := true, state := "defeat",
      currentSprite := some "defeat",
      timers := [{ delay := 1000, callback := .invulnerabilityEnd }] } := by
  simp +decide [defeated, CharacterBase.takeDamage, CharacterBase.defeat,
    CharacterBase.changeState, CharacterBase.new]

theorem miaAfterLightPunch_eq :
    miaAfterLightPunch = { Mia.new with
      isAttacking := true, currentHitbox := some ⟨-30, -50, 60, 40⟩, state := "attacking",
      currentSprite := none, specialMeter := 25 } := by
  simp +decide [miaAfterLightPunch, CharacterBase.attack, CharacterBase.changeState, Mia.new,
    CharacterBase.new, setupAttacks, List.lookup, objectLookup]

theorem hurtOnce_eq :
    hurtOnce = { CharacterBase.new with
      health := 95, isInvulnerable := true, state := "hurt", currentSprite := some "hurt",
      timers := [{ delay := 1000, callback := .invulnerabilityEnd }] } := by
  simp +decide [hurtOnce, CharacterBase.takeDamage, CharacterBase.changeState,
    CharacterBase.new]
  norm_num

theorem miaHurtMeter25_eq :
    miaHurtMeter25 = { Mia.new with
      health := 95, isInvulnerable := true, state := "hurt", currentSprite := some "hurt",
      timers := [{ delay := 1000, callback := .invulnerabilityEnd }], specialMeter := 25 } := by
  simp +decide [miaHurtMeter25, CharacterBase.takeDamage, CharacterBase.changeState, Mia.new,
    CharacterBase.new]
  norm_num

/-! ## Lemmas on `attack`, `update` and the passive events -/

/-- A configured attack started in a state other than `attacking` and `hurt` throws in
`changeState('attacking')`: no sprite has that key. No timer is scheduled. -/
theorem CharacterBase.attack_throws (c : CharacterBase) (type : String) (attack : AttackDef)
    (h1 : c.state ≠ "attacking") (h2 : c.state ≠ "hurt")
    (hl : setupAttacks.lookup type = some attack) :
    (c.attack type).2 = .threw .typeError ∧ (c.attack type).1.timers = c.timers ∧
      (c.attack type).1.isAttacking = true ∧
      (c.attack type).1.currentHitbox = some attack.hitbox := by
  unfold CharacterBase.attack CharacterBase.changeState
  simp only [h1, h2, or_self, if_false, objectLookup_of_lookup _ _ _ hl]
  cases c.currentSprite <;> simp +decide [spriteKeys]

/-- What `changeState` does to the state: it stays or becomes the target. -/
theorem CharacterBase.changeState_state (c : CharacterBase) (s : String) :
    (c.changeState s).1.state = c.state ∨ (c.changeState s).1.state = s := by
  unfold CharacterBase.changeState
  split_ifs <;> cases c.currentSprite <;> simp

/-- The input-buffer step writes the buffer timer only. -/
theorem CharacterBase.updateInputBuffer_fields (c : CharacterBase) (deltaTime : ℚ) :
    (c.updateInputBuffer deltaTime).state = c.state ∧
      (c.updateInputBuffer deltaTime).currentSprite = c.currentSprite := by
  unfold CharacterBase.updateInputBuffer
  split_ifs <;> exact ⟨rfl, rfl⟩

/-- The hitbox step does not write the state. -/
theorem CharacterBase.updateHitboxes_state (c : CharacterBase) :
    c.updateHitboxes.state = c.state := by
  unfold CharacterBase.updateHitboxes
  simp only []
  split <;> rfl

/-- The state dispatch writes nothing: it returns or throws. -/
theorem CharacterBase.updateState_fst (c : CharacterBase) (deltaTime : ℚ) :
    (c.updateState deltaTime).1 = c := by
  unfold CharacterBase.updateState
  split_ifs <;> rfl

/-- The frame update never writes the state. -/
theorem CharacterBase.update_state (c : CharacterBase) (deltaTime : ℚ) :
    (c.update deltaTime).1.state = c.state := by
  unfold CharacterBase.update
  simp only []
  split
  · exact (CharacterBase.updateInputBuffer_fields c deltaTime).1
  · rw [CharacterBase.updateState_fst, CharacterBase.updateHitboxes_state]
    exact (CharacterBase.updateInputBuffer_fields c deltaTime).1

/-- In the state `hurt` the frame update throws a `TypeError`: at the sprite when there is
none, else at the call of `updateHurtState`. -/
theorem CharacterBase.update_hurt_throws (c : CharacterBase) (deltaTime : ℚ)
    (hs : c.state = "hurt") : (c.update deltaTime).2 = .threw .typeError := by
  unfold CharacterBase.update
  simp only []
  split
  · rfl
  · have h : (c.updateInputBuffer deltaTime).updateHitboxes.state = "hurt" := by
      rw [CharacterBase.updateHitboxes_state, (CharacterBase.updateInputBuffer_fields c deltaTime).1]
      exact hs
    unfold CharacterBase.updateState
    simp +decide [h]

/-- No timer callback takes a character out of `hurt`. -/
theorem CharacterBase.fire_state_hurt (c : CharacterBase) (callback : TimerCallback)
    (elapsed : ℚ) (hs : c.state = "hurt") : (c.fire callback elapsed).1.state = "hurt" := by
  cases callback <;> simp +decide [CharacterBase.fire, hs]
  split_ifs <;> simp [hs]

/-- A passive event keeps the state `hurt`. -/
theorem CharacterBase.passive_state_hurt (c : CharacterBase) (e : Passive)
    (hs : c.state = "hurt") : (c.passive e).state = "hurt" := by
  cases e with
  | update deltaTime => simp [CharacterBase.passive, CharacterBase.update_state, hs]
  | fire callback elapsed => exact CharacterBase.fire_state_hurt c callback elapsed hs

/-- A sequence of passive events keeps the state `hurt`. -/
theorem CharacterBase.passives_state_hurt (events : List Passive) :
    ∀ c : CharacterBase, c.state = "hurt" → (c.passives events).state = "hurt" := by
  induction events with
  | nil => intro c hs; simpa [CharacterBase.passives] using hs
  | cons e rest ih =>
    intro c hs
    have h := ih (c.passive e) (CharacterBase.passive_state_hurt c e hs)
    simpa [CharacterBase.passives] using h

/-- With a current sprite, `takeDamage` returns, and what it leaves is: the clamped
health, `isInvulnerable`, the invulnerability timer, and the state `defeat` (health 0 or
below) or `hurt`, with the sprite of that state. -/
theorem CharacterBase.takeDamage_of_sprite (c : CharacterBase) (a : ℚ) (k : String)
    (hk : c.currentSprite = some k) :
    c.takeDamage a =
      ({ c with
          health := max 0 (c.health - (if c.isBlocking then a * (2 / 10) else a)),
          isInvulnerable := true,
          state := if max 0 (c.health - (if c.isBlocking then a * (2 / 10) else a)) ≤ 0
            then "defeat" else "hurt",
          currentSprite :=
            if max 0 (c.health - (if c.isBlocking then a * (2 / 10) else a)) ≤ 0
            then some "defeat" else if c.state = "hurt" then some k else some "hurt",
          timers := c.timers ++ [{ delay := 1000, callback := .invulnerabilityEnd }] },
        .returned ()) := by
  unfold CharacterBase.takeDamage CharacterBase.defeat
  simp only []
  generalize (if c.isBlocking = true then a * (2 / 10) else a) = d
  rw [CharacterBase.changeState_of_sprite _ "hurt" k (by simpa using hk) (by decide)]
  by_cases hs : c.state = "hurt"
  · simp only [hs, if_true]
    by_cases hle : max 0 (c.health - d) ≤ 0
    · simp only [hle, if_true]
      rw [CharacterBase.changeState_of_sprite _ "defeat" k (by simpa using hk) (by decide)]
      simp +decide [hs, hk]
    · simp [hle, hs, hk]
  · simp only [hs, if_false]
    by_cases hle : max 0 (c.health - d) ≤ 0
    · simp only [hle, if_true]
      rw [CharacterBase.changeState_of_sprite _ "defeat" "hurt" rfl (by decide)]
      simp +decide
    · simp [hle]

/-- With a current sprite, the state after `takeDamage` is `defeat` when the resulting
health is 0 or below and `hurt` otherwise, and the call returns. -/
theorem CharacterBase.takeDamage_state_of_sprite (c : CharacterBase) (a : ℚ) (k : String)
    (hk : c.currentSprite = some k) :
    (c.takeDamage a).1.state =
        (if (c.takeDamage a).1.health ≤ 0 then "defeat" else "hurt") ∧
      (c.takeDamage a).2 = .returned () := by
  rw [CharacterBase.takeDamage_of_sprite c a k hk]
  exact ⟨rfl, rfl⟩

/-! ## Lemmas on the engine -/

/-- A loop whose body keeps a projection of the state keeps it. -/
theorem forEachUntilThrow_preserves {σ α β : Type} (f : σ → α → σ × Completion Unit)
    (proj : σ → β) (hf : ∀ s a, proj (f s a).1 = proj s) :
    ∀ (l : List α) (s : σ), proj (forEachUntilThrow f l s).1 = proj s := by
  intro l
  induction l with
  | nil => intro s; rfl
  | cons a rest ih =>
    intro s
    unfold forEachUntilThrow
    have h := hf s a
    rcases hfa : f s a with ⟨s1, v | e⟩
    · rw [hfa] at h
      simp only []
      rw [ih s1]
      exact h
    · rw [hfa] at h
      exact h

theorem GameEngine.setPlayer_matchFields (g : GameEngine) (i : Nat) (c : CharacterBase) :
    (g.setPlayer i c).matchFields = g.matchFields := by
  unfold GameEngine.setPlayer
  split <;> rfl

theorem GameEngine.updatePlayerAt_matchFields (deltaTime : ℚ) (g : GameEngine) (i : Nat) :
    (GameEngine.updatePlayerAt deltaTime g i).1.matchFields = g.matchFields := by
  unfold GameEngine.updatePlayerAt
  split
  · rfl
  · exact GameEngine.setPlayer_matchFields _ _ _

theorem GameEngine.collidePair_matchFields (env : EngineEnv) (g : GameEngine) (ij : Nat × Nat) :
    (GameEngine.collidePair env g ij).1.matchFields = g.matchFields := by
  unfold GameEngine.collidePair
  split
  · split
    · rfl
    · rfl
    · simp only [GameEngine.setPlayer_matchFields]
  · rfl

theorem GameEngine.hitPair_matchFields (env : EngineEnv) (i : Nat) (g : GameEngine) (j : Nat) :
    (GameEngine.hitPair env i g j).1.matchFields = g.matchFields := by
  unfold GameEngine.hitPair
  split
  · split
    · rfl
    · rfl
    · simp only [GameEngine.setPlayer_matchFields]
      rfl
  · rfl

theorem GameEngine.hitboxesOf_matchFields (env : EngineEnv) (g : GameEngine) (i : Nat) :
    (GameEngine.hitboxesOf env g i).1.matchFields = g.matchFields := by
  unfold GameEngine.hitboxesOf
  split
  · rfl
  · split_ifs
    · exact forEachUntilThrow_preserves _ GameEngine.matchFields
        (GameEngine.hitPair_matchFields env i) _ g
    · rfl

theorem GameEngine.checkCollisions_matchFields (env : EngineEnv) (g : GameEngine) :
    (g.checkCollisions env).1.matchFields = g.matchFields := by
  unfold GameEngine.checkCollisions
  have h1 := forEachUntilThrow_preserves (GameEngine.collidePair env) GameEngine.matchFields
    (GameEngine.collidePair_matchFields env) (indexPairs g.players.length) g
  rcases hfe : forEachUntilThrow (GameEngine.collidePair env) (indexPairs g.players.length) g
    with ⟨g1, v | e⟩
  · rw [hfe] at h1
    simp only [] at h1 ⊢
    rw [forEachUntilThrow_preserves (GameEngine.hitboxesOf env) GameEngine.matchFields
      (GameEngine.hitboxesOf_matchFields env)]
    exact h1
  · rw [hfe] at h1
    exact h1

/-- After the timer part of `update`, nothing in the tick touches the pause flag, the
`endMatch` count or the timer. -/
theorem GameEngine.update_matchFields (env : EngineEnv) (g : GameEngine) (deltaTime : ℚ)
    (hp : g.isPaused = false) :
    (g.update env deltaTime).1.matchFields = (g.updateTimer env deltaTime).1.matchFields := by
  unfold GameEngine.update
  simp only [hp, Bool.false_eq_true, if_false]
  rcases g.updateTimer env deltaTime with ⟨g1, v | e⟩
  · simp only []
    have h2 := forEachUntilThrow_preserves (GameEngine.updatePlayerAt deltaTime)
      GameEngine.matchFields (GameEngine.updatePlayerAt_matchFields deltaTime)
      (List.range g1.players.length) g1
    rcases hfe : forEachUntilThrow (GameEngine.updatePlayerAt deltaTime)
      (List.range g1.players.length) g1 with ⟨g2, v2 | e2⟩
    · rw [hfe] at h2
      simp only [] at h2 ⊢
      rw [GameEngine.checkCollisions_matchFields]
      exact h2
    · rw [hfe] at h2
      exact h2
  · rfl

theorem GameEngine.triggerVictorySequence_matchFields (env : EngineEnv) (g : GameEngine)
    (winner : Option (Nat × String × CharacterBase)) :
    (g.triggerVictorySequence env winner).1.matchFields = g.matchFields := by
  unfold GameEngine.triggerVictorySequence
  split
  · rfl
  · exact GameEngine.setPlayer_matchFields _ _ _

/-- The timer part of `update` on a running timer: either the timer stays above 0 and
nothing else happens, or it is set to 0 and `endMatch` pauses the engine. -/
theorem GameEngine.updateTimer_matchFields (env : EngineEnv) (g : GameEngine) (deltaTime : ℚ)
    (ht : 0 < g.gameTime) :
    (g.updateTimer env deltaTime).1.matchFields =
      if g.gameTime - deltaTime / 60 ≤ 0 then (true, g.endMatchCalls + 1, 0)
      else (g.isPaused, g.endMatchCalls, g.gameTime - deltaTime / 60) := by
  unfold GameEngine.updateTimer
  simp only [gt_iff_lt, ht, if_true]
  split_ifs
  · unfold GameEngine.endMatch
    simp only []
    rw [GameEngine.triggerVictorySequence_matchFields]
    rfl
  · rfl

/-- The winner among two players whose first has health 0 or more. -/
theorem GameEngine.determineWinner_two (g : GameEngine) (ida idb : String)
    (a b : CharacterBase) (hp : g.players = [(ida, a), (idb, b)]) (ha : 0 ≤ a.health) :
    g.determineWinner =
      if a.health < b.health then some (1, idb, b) else some (0, ida, a) := by
  have h1 : a.health > -1 := by linarith
  simp only [GameEngine.determineWinner, hp, List.enum, List.enumFrom,
    GameEngine.determineWinner.loop, h1, if_true, gt_iff_lt]

/-- What `takeDamage` always leaves: `isInvulnerable = true`. -/
theorem CharacterBase.takeDamage_isInvulnerable (c : CharacterBase) (a : ℚ) :
    (c.takeDamage a).1.isInvulnerable = true := by
  have hcs : ∀ (x : CharacterBase) (s : String),
      (x.changeState s).1.isInvulnerable = x.isInvulnerable := by
    intro x s
    unfold CharacterBase.changeState
    split_ifs <;> cases x.currentSprite <;> simp
  unfold CharacterBase.takeDamage CharacterBase.defeat
  simp only []
  generalize (if c.isBlocking = true then a * (2 / 10) else a) = d
  have key := hcs { c with health := max 0 (c.health - d), isInvulnerable := true } "hurt"
  rcases hr : CharacterBase.changeState
    { c with health := max 0 (c.health - d), isInvulnerable := true } "hurt" with ⟨c1, v | e⟩
  · rw [hr] at key
    simp only [] at key ⊢
    split_ifs
    · rw [hcs]
      exact key
    · exact key
  · rw [hr] at key
    exact key

theorem health60_eq : health60.health = 60 ∧ health40.health = 40 := by
  unfold health60 health40
  rw [(CharacterBase.takeDamage_health _ _).1, (CharacterBase.takeDamage_health _ _).1]
  norm_num [CharacterBase.new]

theorem knockoutEngine_fields :
    knockoutEngine.isPaused = false ∧ knockoutEngine.gameTime = 99 ∧
      knockoutEngine.endMatchCalls = 0 ∧
      knockoutEngine.players = [("p1", defeated), ("p2", CharacterBase.new)] :=
  ⟨rfl, rfl, rfl, rfl⟩

/-- A hit on an invulnerable defender changes neither player. -/
theorem resolveHit_invulnerable_second (m : PlayerMethods) (attacker defender : CharacterBase)
    (hinv : defender.isInvulnerable = true) :
    (GameEngine.resolveHit m attacker defender).1 = (attacker, defender) := by
  unfold GameEngine.resolveHit
  rcases m.getCurrentAttack attacker with (_ | hit) | e <;> simp [hinv]

/-- The attacker comes out of `resolveHit` as it went in. -/
theorem resolveHit_attacker (m : PlayerMethods) (attacker defender : CharacterBase) :
    (GameEngine.resolveHit m attacker defender).1.1 = attacker := by
  unfold GameEngine.resolveHit
  rcases m.getCurrentAttack attacker with (_ | hit) | e
  · rfl
  · simp only []
    split_ifs
    · rcases defender.takeDamage hit.damage with ⟨d1, v | e⟩
      · simp only []
        rcases m.applyKnockback d1 hit.knockback attacker.direction with ⟨d2, v2 | e2⟩ <;> rfl
      · rfl
    · rfl
  · rfl

/-- The defender comes out of `resolveHit` untouched or invulnerable, when the knockback
does not clear the flag. -/
theorem resolveHit_defender (m : PlayerMethods) (attacker defender : CharacterBase)
    (hk : ∀ (c : CharacterBase) (k d : ℚ), c.isInvulnerable = true →
      (m.applyKnockback c k d).1.isInvulnerable = true) :
    (GameEngine.resolveHit m attacker defender).1.2 = defender ∨
      (GameEngine.resolveHit m attacker defender).1.2.isInvulnerable = true := by
  unfold GameEngine.resolveHit
  rcases m.getCurrentAttack attacker with (_ | hit) | e
  · exact Or.inl rfl
  · simp only []
    split_ifs
    · right
      have ht := CharacterBase.takeDamage_isInvulnerable defender hit.damage
      rcases hr : defender.takeDamage hit.damage with ⟨d1, v | e⟩
      · rw [hr] at ht
        simp only [] at ht ⊢
        have hk1 := hk d1 hit.knockback attacker.direction ht
        rcases hr2 : m.applyKnockback d1 hit.knockback attacker.direction with ⟨d2, v2 | e2⟩
        · rw [hr2] at hk1
          exact hk1
        · rw [hr2] at hk1
          exact hk1
      · rw [hr] at ht
        exact ht
    · exact Or.inl rfl
  · exact Or.inl rfl

/-- Without a current sprite the frame update only advances the input-buffer timer and
throws. -/
theorem CharacterBase.update_of_no_sprite (c : CharacterBase) (deltaTime : ℚ)
    (hk : c.currentSprite = none) :
    (c.update deltaTime).1 = c.updateInputBuffer deltaTime ∧
      (c.update deltaTime).2 = .threw .typeError := by
  have h := (CharacterBase.updateInputBuffer_fields c deltaTime).2
  simp [CharacterBase.update, h, hk]

/-- Frame updates of a character without a current sprite leave its attack as it is. -/
theorem CharacterBase.updates_keep_attack (deltas : List ℚ) :
    ∀ c : CharacterBase, c.currentSprite = none →
      (c.passives (deltas.map Passive.update)).isAttacking = c.isAttacking ∧
      (c.passives (deltas.map Passive.update)).currentHitbox = c.currentHitbox ∧
      (c.passives (deltas.map Passive.update)).state = c.state ∧
      (c.passives (deltas.map Passive.update)).timers = c.timers := by
  induction deltas with
  | nil => intro c _; exact ⟨rfl, rfl, rfl, rfl⟩
  | cons d rest ih =>
    intro c hk
    have hu := (CharacterBase.update_of_no_sprite c d hk).1
    have hf : (c.updateInputBuffer d).isAttacking = c.isAttacking ∧
        (c.updateInputBuffer d).currentHitbox = c.currentHitbox ∧
        (c.updateInputBuffer d).state = c.state ∧
        (c.updateInputBuffer d).timers = c.timers ∧
        (c.updateInputBuffer d).currentSprite = none := by
      unfold CharacterBase.updateInputBuffer
      split_ifs <;> exact ⟨rfl, rfl, rfl, rfl, hk⟩
    have hstep : c.passives ((d :: rest).map Passive.update) =
        (c.updateInputBuffer d).passives (rest.map Passive.update) := by
      unfold CharacterBase.passives
      simp only [List.map_cons, List.foldl_cons, CharacterBase.passive, hu]
    rw [hstep]
    obtain ⟨h1, h2, h3, h4⟩ := ih (c.updateInputBuffer d) hf.2.2.2.2
    exact ⟨h1.trans hf.1, h2.trans hf.2.1, h3.trans hf.2.2.1, h4.trans hf.2.2.2.1⟩

/-- In binary64, `0.2 * (5 * k)` is exactly `k` for a natural number `k` below `2 ^ 53`. -/
theorem Float64.round_fifth_mul (k : ℕ) (hk : k < 2 ^ 53) :
    Float64.round (5 * (k : ℚ) * (3602879701896397 / 2 ^ 54)) = .finite k := by
  rcases Nat.eq_zero_or_pos k with rfl | hpos
  · simpa using Float64.round_zero
  have hx : 5 * (k : ℚ) * (3602879701896397 / 2 ^ 54) = k + k / 2 ^ 54 := by ring
  rw [hx]
  have hkq : (0 : ℚ) < k := by exact_mod_cast hpos
  have h2 : (2 : ℚ) ≠ 0 := by norm_num
  have hlo : 2 ^ Nat.log 2 k ≤ k := Nat.pow_log_le_self 2 (Nat.pos_iff_ne_zero.1 hpos)
  have hhi : k < 2 ^ (Nat.log 2 k + 1) := Nat.lt_pow_succ_log_self (by norm_num) k
  have he : Nat.log 2 k < 53 := by
    by_contra hge
    have h53 : 2 ^ 53 ≤ 2 ^ Nat.log 2 k := Nat.pow_le_pow_right (by norm_num) (not_lt.1 hge)
    omega
  have hloq : (2 : ℚ) ^ (Nat.log 2 k : ℤ) ≤ k := by
    rw [zpow_natCast]
    exact_mod_cast hlo
  have hhiq : (k : ℚ) + 1 ≤ (2 : ℚ) ^ ((Nat.log 2 k : ℤ) + 1) := by
    have h : k + 1 ≤ 2 ^ (Nat.log 2 k + 1) := hhi
    have e : ((Nat.log 2 k : ℤ) + 1) = ((Nat.log 2 k + 1 : ℕ) : ℤ) := by push_cast; rfl
    rw [e, zpow_natCast]
    exact_mod_cast h
  have hsmall : (k : ℚ) / 2 ^ 54 < 1 / 2 := by
    have hk53 : (k : ℚ) < 2 ^ 53 := by exact_mod_cast hk
    rw [div_lt_iff₀ (by positivity)]
    linarith
  have habs : |(k : ℚ) + k / 2 ^ 54| = (k : ℚ) + (k : ℚ) / 2 ^ 54 :=
    abs_of_pos (by positivity)
  have hq : Float64.quantum ((k : ℚ) + k / 2 ^ 54) = (Nat.log 2 k : ℤ) - 52 := by
    apply Float64.quantum_eq
    · rw [habs]
      have : (0 : ℚ) ≤ k / 2 ^ 54 := by positivity
      linarith
    · rw [habs]
      linarith
    · omega
  have hgrid := Float64.scaled_on_grid k 0 ((Nat.log 2 k : ℤ) - 52) (by omega)
  simp only [zpow_zero, mul_one, Int.cast_natCast] at hgrid
  apply Float64.round_eq_of_abs_sub_lt _ _ ((k : ℤ) * 2 ^ (0 - ((Nat.log 2 k : ℤ) - 52)).toNat)
  · rw [hq]
    exact hgrid
  · rw [hq]
    have e1 : (k : ℚ) + k / 2 ^ 54 - k = k / 2 ^ 54 := by ring
    rw [e1, abs_of_pos (by positivity)]
    have e2 : (2 : ℚ) ^ ((Nat.log 2 k : ℤ) - 52) / 2 =
        2 ^ ((Nat.log 2 k : ℤ) + 1) / 2 ^ 54 := by
      rw [zpow_sub₀ h2, zpow_add₀ h2]
      norm_num
      ring
    rw [e2]
    exact div_lt_div_of_pos_right (by linarith) (by positivity)
  · rw [abs_of_pos hkq]
    have hk53 : (k : ℚ) < 2 ^ 53 := by exact_mod_cast hk
    refine lt_trans hk53 ?_
    norm_num

/-! ## Lemmas on the input buffer -/

theorem InputHandler.addToBuffer_inputBuffer (h : InputHandler) (input : JSVal) (now : ℚ) :
    (h.addToBuffer input now).inputBuffer =
      if h.inputBuffer.length + 1 > 10 then (h.inputBuffer ++ [bufferEntry input now]).tail
      else h.inputBuffer ++ [bufferEntry input now] := by
  unfold InputHandler.addToBuffer bufferEntry
  simp only [List.length_append, List.length_singleton]
  split_ifs <;> rfl

/-- After `addToBuffer` the buffer holds at most 10 entries if it held at most 10. -/
theorem InputHandler.addToBuffer_length_le (h : InputHandler) (input : JSVal) (now : ℚ)
    (hle : h.inputBuffer.length ≤ 10) : (h.addToBuffer input now).inputBuffer.length ≤ 10 := by
  rw [InputHandler.addToBuffer_inputBuffer]
  split_ifs with hgt
  · simp only [List.length_tail, List.length_append, List.length_singleton]
    omega
  · simp only [List.length_append, List.length_singleton]
    omega

theorem InputHandler.purge_length_le (h : InputHandler) (currentTime : ℚ) :
    (h.purge currentTime).inputBuffer.length ≤ h.inputBuffer.length := by
  unfold InputHandler.purge
  exact List.length_filter_le _ _

theorem InputHandler.update_length_le (gamepad : List (ℚ × String × ℚ)) :
    ∀ (h : InputHandler) (deltaTime currentTime : ℚ), h.inputBuffer.length ≤ 10 →
      (h.update deltaTime currentTime gamepad).inputBuffer.length ≤ 10 := by
  have hfold : ∀ (calls : List (ℚ × String × ℚ)) (acc : InputHandler),
      acc.inputBuffer.length ≤ 10 →
      (calls.foldl (fun acc call => acc.handleGamepadButton call.1 call.2.1 call.2.2)
        acc).inputBuffer.length ≤ 10 := by
    intro calls
    induction calls with
    | nil => intro acc hacc; exact hacc
    | cons call rest ih =>
      intro acc hacc
      exact ih _ (InputHandler.addToBuffer_length_le acc _ _ hacc)
  intro h deltaTime currentTime hle
  unfold InputHandler.update
  apply hfold
  exact le_trans (InputHandler.purge_length_le _ currentTime) hle

/-- Every call keeps the buffer within 10 entries. -/
theorem InputHandler.apply_length_le (h : InputHandler) (op : InputOp)
    (hle : h.inputBuffer.length ≤ 10) : (h.apply op).inputBuffer.length ≤ 10 := by
  cases op with
  | addToBuffer input now => exact InputHandler.addToBuffer_length_le h input now hle
  | handleKeyDown keyCode now =>
    show (h.handleKeyDown keyCode now).inputBuffer.length ≤ 10
    unfold InputHandler.handleKeyDown
    split_ifs
    · simp only []
      split
      · exact InputHandler.addToBuffer_length_le _ _ _ hle
      · exact hle
    · exact hle
  | handleKeyUp keyCode => exact hle
  | handleGamepadButton playerIndex action now =>
    exact InputHandler.addToBuffer_length_le h _ now hle
  | handleGamepadAxis playerIndex direction now =>
    exact InputHandler.addToBuffer_length_le h _ now hle
  | update deltaTime currentTime gamepad =>
    exact InputHandler.update_length_le gamepad h deltaTime currentTime hle
  | reset => simp [InputHandler.apply, InputHandler.reset]

theorem InputHandler.run_length_le (ops : List InputOp) :
    ∀ h : InputHandler, h.inputBuffer.length ≤ 10 → (h.run ops).inputBuffer.length ≤ 10 := by
  induction ops with
  | nil => intro h hle; exact hle
  | cons op rest ih =>
    intro h hle
    exact ih (h.apply op) (InputHandler.apply_length_le h op hle)

/-- Strict equality of two numbers. -/
theorem JSVal.num_beq_num (a b : ℚ) : (JSVal.num a == JSVal.num b) = decide (a = b) := rfl

/-- Strict equality of `undefined` with a string. -/
theorem JSVal.undefined_beq_str (s : String) : (JSVal.undefined == JSVal.str s) = false := rfl

/-- A string is strictly equal to itself. -/
theorem JSVal.str_beq_self (s : String) : (JSVal.str s == JSVal.str s) = true := by
  show JSVal.strictEq (JSVal.str s) (JSVal.str s) = true
  simp [JSVal.strictEq]

/-- The property reads on an entry `{ input, timestamp }`. -/
theorem bufferEntry_getProp (input : JSVal) (now : ℚ) :
    (bufferEntry input now).getProp "player" = .undefined ∧
      (bufferEntry input now).getProp "action" = .undefined ∧
      (bufferEntry input now).getProp "input" = input ∧
      (bufferEntry input now).getProp "timestamp" = .num now := by
  refine ⟨?_, ?_, ?_, ?_⟩ <;> simp +decide [bufferEntry, JSVal.getProp, List.lookup]

/-- What is recorded for a player depends on the buffer only, and distributes over `++`. -/
theorem InputHandler.recordedActions_append (h h1 h2 : InputHandler) (player : JSVal)
    (hb : h.inputBuffer = h1.inputBuffer ++ h2.inputBuffer) :
    h.recordedActions player = h1.recordedActions player ++ h2.recordedActions player := by
  unfold InputHandler.recordedActions
  rw [hb]
  simp only [List.map_append, List.filter_append]

/-- The new entry for player `q` is not recorded for a different player `p`. -/
theorem InputHandler.recordedActions_entry_other (h : InputHandler) (p q : ℚ) (action : String)
    (now : ℚ) (hne : p ≠ q) (hb : h.inputBuffer = [bufferEntry (mkInput q action) now]) :
    h.recordedActions (.num p) = [] := by
  unfold InputHandler.recordedActions
  rw [hb]
  have hqp : ¬ (q = p) := fun e => hne e.symm
  simp +decide [bufferEntry, mkInput, JSVal.getProp, List.lookup, JSVal.num_beq_num, hqp]

/-- The general test of `matchesPattern.inner`, for any `==`. -/
theorem matchesPattern.inner_beq {α : Type} [BEq α] (inputs pattern : List α) (i : Nat) :
    ∀ n j, matchesPattern.inner inputs pattern i n j = true ↔
      ∀ t, t < n → (inputs[i + (j + t)]? == pattern[j + t]?) = true := by
  intro n
  induction n with
  | zero => intro j; simp [matchesPattern.inner]
  | succ n ih =>
    intro j
    simp only [matchesPattern.inner]
    by_cases heq : (inputs[i + j]? == pattern[j]?) = true
    · have hne : ¬ ((inputs[i + j]? != pattern[j]?) = true) := by simp [bne, heq]
      simp only [hne, Bool.false_eq_true, if_false]
      rw [ih (j + 1)]
      constructor
      · intro hrec t ht
        rcases Nat.eq_zero_or_pos t with rfl | hpos
        · simpa using heq
        · have hstep := hrec (t - 1) (by omega)
          have e : j + 1 + (t - 1) = j + t := by omega
          rw [e] at hstep
          exact hstep
      · intro hall t ht
        have hstep := hall (t + 1) (by omega)
        have e : j + 1 + t = j + (t + 1) := by omega
        rw [e]
        exact hstep
    · have hne : (inputs[i + j]? != pattern[j]?) = true := by simp [bne, heq]
      simp only [hne, if_true, Bool.false_eq_true, false_iff]
      intro hall
      exact heq (by simpa using hall 0 (by omega))

/-- The general test of `matchesPattern.outer`, for any `==`. -/
theorem matchesPattern.outer_beq {α : Type} [BEq α] (inputs pattern : List α) :
    ∀ n i, matchesPattern.outer inputs pattern n i = true ↔
      ∃ k, i ≤ k ∧ k < i + n ∧
        matchesPattern.inner inputs pattern k pattern.length 0 = true := by
  intro n
  induction n with
  | zero =>
    intro i
    simp only [matchesPattern.outer, Bool.false_eq_true, false_iff]
    rintro ⟨k, h1, h2, _⟩
    omega
  | succ n ih =>
    intro i
    simp only [matchesPattern.outer]
    by_cases hi : matchesPattern.inner inputs pattern i pattern.length 0 = true
    · simp only [hi, if_true, true_iff]
      exact ⟨i, le_refl i, by omega, hi⟩
    · simp only [hi, Bool.false_eq_true, if_false]
      rw [ih (i + 1)]
      constructor
      · rintro ⟨k, h1, h2, h3⟩
        exact ⟨k, by omega, by omega, h3⟩
      · rintro ⟨k, h1, h2, h3⟩
        have hk : k ≠ i := fun e => hi (e ▸ h3)
        exact ⟨k, by omega, by omega, h3⟩

/-- What `matchesPattern` tests, for any `==`: some window of `inputs` is elementwise `==`
to `pattern`. -/
theorem matchesPattern_beq_iff {α : Type} [BEq α] (inputs pattern : List α) :
    matchesPattern inputs pattern = true ↔
      ∃ i, i + pattern.length ≤ inputs.length ∧
        ∀ j, j < pattern.length → (inputs[i + j]? == pattern[j]?) = true := by
  unfold matchesPattern
  by_cases hlen : inputs.length < pattern.length
  · simp only [hlen, if_true, Bool.false_eq_true, false_iff]
    rintro ⟨i, hi, _⟩
    omega
  · simp only [hlen, if_false]
    rw [matchesPattern.outer_beq]
    constructor
    · rintro ⟨k, _, hk, hin⟩
      refine ⟨k, by omega, ?_⟩
      intro j hj
      simpa using (matchesPattern.inner_beq inputs pattern k pattern.length 0).1 hin j hj
    · rintro ⟨i, hi, hall⟩
      refine ⟨i, Nat.zero_le i, by omega, ?_⟩
      apply (matchesPattern.inner_beq inputs pattern i pattern.length 0).2
      intro t ht
      simpa using hall t ht

/-- Every configured pattern has 4 elements, all of them strings. -/
theorem specialMovePatterns_shape :
    ∀ entry ∈ specialMovePatterns,
      entry.2.length = 4 ∧ ∀ x ∈ entry.2, ∃ s, x = JSVal.str s := by
  intro entry he
  simp only [specialMovePatterns, List.mem_cons, List.mem_singleton, List.not_mem_nil,
    or_false] at he
  rcases he with rfl | rfl | rfl | rfl <;>
    exact ⟨rfl, by
      intro x hx
      simp only [List.mem_cons, List.mem_singleton, List.not_mem_nil, or_false] at hx
      rcases hx with rfl | rfl | rfl | rfl <;> exact ⟨_, rfl⟩⟩

/-- A list of `undefined` values matches no configured pattern. -/
theorem matchesPattern_undefined (inputs : List JSVal) (entry : String × List JSVal)
    (hu : ∀ x ∈ inputs, x = JSVal.undefined) (he : entry ∈ specialMovePatterns) :
    matchesPattern inputs entry.2 = false := by
  rw [Bool.eq_false_iff]
  intro hm
  obtain ⟨i, hi, hall⟩ := (matchesPattern_beq_iff inputs entry.2).1 hm
  obtain ⟨hlen, hstr⟩ := specialMovePatterns_shape entry he
  have h0 := hall 0 (by omega)
  have hi' : i < inputs.length := by omega
  have hp' : 0 < entry.2.length := by omega
  rw [Nat.add_zero, List.getElem?_eq_getElem hi', List.getElem?_eq_getElem hp',
    Option.some_beq_some] at h0
  obtain ⟨s, hs⟩ := hstr _ (List.getElem_mem hp')
  rw [hu _ (List.getElem_mem hi'), hs, JSVal.undefined_beq_str] at h0
  exact Bool.false_ne_true h0

/-- Every entry of a buffer built by calls on a new `InputHandler` is an entry
`{ input, timestamp }` pushed by `addToBuffer`. -/
theorem InputHandler.apply_entries (h : InputHandler) (op : InputOp)
    (hb : ∀ e ∈ h.inputBuffer, ∃ input now, e = bufferEntry input now) :
    ∀ e ∈ (h.apply op).inputBuffer, ∃ input now, e = bufferEntry input now := by
  have hadd : ∀ (g : InputHandler) (input : JSVal) (now : ℚ),
      (∀ e ∈ g.inputBuffer, ∃ input now, e = bufferEntry input now) →
      ∀ e ∈ (g.addToBuffer input now).inputBuffer, ∃ input now, e = bufferEntry input now := by
    intro g input now hg e he
    rw [InputHandler.addToBuffer_inputBuffer] at he
    have hmem : e ∈ g.inputBuffer ++ [bufferEntry input now] := by
      split_ifs at he
      · exact List.mem_of_mem_tail he
      · exact he
    rcases List.mem_append.1 hmem with h1 | h1
    · exact hg e h1
    · exact ⟨input, now, by simpa using h1⟩
  cases op with
  | addToBuffer input now => exact hadd h input now hb
  | handleKeyDown keyCode now =>
    show ∀ e ∈ (h.handleKeyDown keyCode now).inputBuffer, _
    unfold InputHandler.handleKeyDown
    split_ifs
    · simp only []
      split
      · exact hadd _ _ _ hb
      · exact hb
    · exact hb
  | handleKeyUp keyCode => exact hb
  | handleGamepadButton playerIndex action now => exact hadd h _ now hb
  | handleGamepadAxis playerIndex direction now => exact hadd h _ now hb
  | update deltaTime currentTime gamepad =>
    show ∀ e ∈ (h.update deltaTime currentTime gamepad).inputBuffer, _
    unfold InputHandler.update
    have hfold : ∀ (calls : List (ℚ × String × ℚ)) (acc : InputHandler),
        (∀ e ∈ acc.inputBuffer, ∃ input now, e = bufferEntry input now) →
        ∀ e ∈ (calls.foldl (fun acc call => acc.handleGamepadButton call.1 call.2.1 call.2.2)
          acc).inputBuffer, ∃ input now, e = bufferEntry input now := by
      intro calls
      induction calls with
      | nil => intro acc hacc; exact hacc
      | cons call rest ih =>
        intro acc hacc
        exact ih _ (hadd acc _ _ hacc)
    apply hfold
    intro e he
    unfold InputHandler.purge at he
    exact hb e (List.mem_of_mem_filter he)
  | reset =>
    intro e he
    simp [InputHandler.apply, InputHandler.reset] at he

theorem InputHandler.run_entries (ops : List InputOp) :
    ∀ h : InputHandler, (∀ e ∈ h.inputBuffer, ∃ input now, e = bufferEntry input now) →
      ∀ e ∈ (h.run ops).inputBuffer, ∃ input now, e = bufferEntry input now := by
  induction ops with
  | nil => intro h hb; exact hb
  | cons op rest ih =>
    intro h hb
    exact ih (h.apply op) (InputHandler.apply_entries h op hb)

/-- On a buffer of entries pushed by `addToBuffer`, every action that `checkSpecialMove`
reads is `undefined`. -/
theorem InputHandler.playerActions_undefined (h : InputHandler) (player : JSVal)
    (hb : ∀ e ∈ h.inputBuffer, ∃ input now, e = bufferEntry input now) :
    ∀ x ∈ h.playerActions player, x = JSVal.undefined := by
  intro x hx
  unfold InputHandler.playerActions at hx
  obtain ⟨e, he, rfl⟩ := List.mem_map.1 hx
  obtain ⟨input, now, rfl⟩ := hb e (List.mem_of_mem_filter he)
  exact (bufferEntry_getProp input now).2.1

/-- The two occurrences example: eight actions that match `hadoken` and `shoryuken`; the
matching step returns `hadoken`, declared first. -/
theorem matchStep_shoryukenThenHadoken :
    matchesPattern (sliceLast 8 shoryukenThenHadoken)
        [.str "down", .str "downforward", .str "forward", .str "punch"] = true ∧
    matchesPattern (sliceLast 8 shoryukenThenHadoken)
        [.str "forward", .str "down", .str "downforward", .str "punch"] = true ∧
    matchStep shoryukenThenHadoken = some "hadoken" := by
  decide

/-! ## Lemmas on the special meter and the facing direction -/

/-- What `changeState` writes: `state` and `currentSprite`, nothing else. -/
theorem CharacterBase.changeState_frame (c : CharacterBase) (s : String) :
    ∃ st sp, (c.changeState s).1 = { c with state := st, currentSprite := sp } := by
  unfold CharacterBase.changeState
  split_ifs
  · exact ⟨c.state, c.currentSprite, rfl⟩
  · cases c.currentSprite with
    | none => exact ⟨c.state, c.currentSprite, rfl⟩
    | some k => exact ⟨s, some s, rfl⟩
  · cases c.currentSprite with
    | none => exact ⟨c.state, c.currentSprite, rfl⟩
    | some k => exact ⟨s, none, rfl⟩

theorem CharacterBase.changeState_specialMeter (c : CharacterBase) (s : String) :
    (c.changeState s).1.specialMeter = c.specialMeter := by
  obtain ⟨st, sp, h⟩ := CharacterBase.changeState_frame c s
  rw [h]

theorem CharacterBase.changeState_direction (c : CharacterBase) (s : String) :
    (c.changeState s).1.direction = c.direction := by
  obtain ⟨st, sp, h⟩ := CharacterBase.changeState_frame c s
  rw [h]

theorem CharacterBase.move_specialMeter (c : CharacterBase) (direction : ℚ) :
    (c.move direction).1.specialMeter = c.specialMeter := by
  unfold CharacterBase.move
  split_ifs
  · rfl
  · rw [CharacterBase.changeState_specialMeter]

theorem CharacterBase.jump_specialMeter (c : CharacterBase) :
    c.jump.1.specialMeter = c.specialMeter := by
  unfold CharacterBase.jump
  split_ifs
  · rfl
  · rw [CharacterBase.changeState_specialMeter]

theorem CharacterBase.attack_specialMeter (c : CharacterBase) (type : String) :
    (c.attack type).1.specialMeter = c.specialMeter := by
  unfold CharacterBase.attack
  split_ifs
  · rfl
  · split
    · rfl
    · rename_i attack _
      have key := CharacterBase.changeState_specialMeter
        { c with isAttacking := true, currentHitbox := some attack.hitbox } "attacking"
      rcases hr : CharacterBase.changeState
        { c with isAttacking := true, currentHitbox := some attack.hitbox } "attacking"
        with ⟨c1, v | e⟩
      · rw [hr] at key
        exact key
      · rw [hr] at key
        exact key
    · have key := CharacterBase.changeState_specialMeter
        { c with isAttacking := true, currentHitbox := none } "attacking"
      rcases hr : CharacterBase.changeState
        { c with isAttacking := true, currentHitbox := none } "attacking" with ⟨c1, v | e⟩
      · rw [hr] at key
        exact key
      · rw [hr] at key
        exact key

theorem CharacterBase.takeDamage_specialMeter (c : CharacterBase) (a : ℚ) :
    (c.takeDamage a).1.specialMeter = c.specialMeter := by
  unfold CharacterBase.takeDamage CharacterBase.defeat
  simp only []
  generalize (if c.isBlocking = true then a * (2 / 10) else a) = d
  have key := CharacterBase.changeState_specialMeter
    { c with health := max 0 (c.health - d), isInvulnerable := true } "hurt"
  rcases hr : CharacterBase.changeState
    { c with health := max 0 (c.health - d), isInvulnerable := true } "hurt" with ⟨c1, v | e⟩
  · rw [hr] at key
    simp only [] at key ⊢
    split_ifs
    · rw [CharacterBase.changeState_specialMeter]
      exact key
    · exact key
  · rw [hr] at key
    exact key

theorem CharacterBase.update_specialMeter (c : CharacterBase) (deltaTime : ℚ) :
    (c.update deltaTime).1.specialMeter = c.specialMeter := by
  have h1 : (c.updateInputBuffer deltaTime).specialMeter = c.specialMeter := by
    unfold CharacterBase.updateInputBuffer
    split_ifs <;> rfl
  have h2 : ∀ x : CharacterBase, x.updateHitboxes.specialMeter = x.specialMeter := by
    intro x
    unfold CharacterBase.updateHitboxes
    simp only []
    split <;> rfl
  unfold CharacterBase.update
  simp only []
  split
  · exact h1
  · rw [CharacterBase.updateState_fst, h2]
    exact h1

theorem CharacterBase.fire_specialMeter (c : CharacterBase) (callback : TimerCallback)
    (elapsed : ℚ) : (c.fire callback elapsed).1.specialMeter = c.specialMeter := by
  cases callback <;> unfold CharacterBase.fire <;> simp only []
  · split_ifs
    · rw [CharacterBase.changeState_specialMeter]
    · rfl
  · split_ifs
    · rw [CharacterBase.changeState_specialMeter]
    · rfl
  · split_ifs <;> rfl

theorem GameEngine.updatePlayer_specialMeter (g : GameEngine) (c : CharacterBase)
    (deltaTime : ℚ) : (g.updatePlayer c deltaTime).1.specialMeter = c.specialMeter := by
  unfold GameEngine.updatePlayer
  simp only []
  rw [CharacterBase.update_specialMeter]
  split_ifs <;> rfl

/-- Every special move costs more than 0. -/
theorem Mia.meterCost_pos (moveName : String) (move : SpecialMoveDef)
    (hm : Mia.setupSpecialMoves.lookup moveName = some move) : 0 < move.meterCost := by
  unfold Mia.setupSpecialMoves at hm
  simp only [List.lookup] at hm
  split at hm
  · cases hm; norm_num
  · split at hm
    · cases hm; norm_num
    · split at hm
      · cases hm; norm_num
      · cases hm

/-- With the meter at 0, `executeSpecialMove` with a name that `Object.prototype` does not
have returns `false` and changes nothing. -/
theorem Mia.executeSpecialMove_meter_zero (c : CharacterBase) (moveName : String)
    (h0 : c.specialMeter = 0) (hn : moveName ∉ objectPrototypeKeys) :
    Mia.executeSpecialMove c moveName = (c, .returned false) := by
  unfold Mia.executeSpecialMove
  cases hm : Mia.setupSpecialMoves.lookup moveName with
  | none =>
    rw [(objectLookup_missing_iff _ _).2 ⟨hm, hn⟩]
  | some move =>
    have hpos := Mia.meterCost_pos moveName move hm
    have hlt : c.specialMeter < move.meterCost := by
      rw [h0]
      exact (Float64.ofNat_lt_finite 0 _).2 (by simpa using hpos)
    rw [objectLookup_of_lookup _ _ _ hm]
    simp only [hlt, if_true]

/-- Every call other than `executeSpecialMove` with an inherited name keeps the meter
at 0. -/
theorem Mia.apply_specialMeter (c : CharacterBase) (op : MiaOp) (h0 : c.specialMeter = 0)
    (hop : op.ownName = true) : (Mia.apply c op).specialMeter = 0 := by
  cases op with
  | move direction => exact (CharacterBase.move_specialMeter c direction).trans h0
  | jump => exact (CharacterBase.jump_specialMeter c).trans h0
  | attack type => exact (CharacterBase.attack_specialMeter c type).trans h0
  | takeDamage amount => exact (CharacterBase.takeDamage_specialMeter c amount).trans h0
  | executeSpecialMove moveName =>
    show (Mia.executeSpecialMove c moveName).1.specialMeter = 0
    have hn : moveName ∉ objectPrototypeKeys := by
      simpa [MiaOp.ownName] using hop
    rw [Mia.executeSpecialMove_meter_zero c moveName h0 hn]
    exact h0
  | update deltaTime => exact (CharacterBase.update_specialMeter c deltaTime).trans h0
  | defeat => exact (CharacterBase.changeState_specialMeter c "defeat").trans h0
  | victory => exact (CharacterBase.changeState_specialMeter c "victory").trans h0
  | reset =>
    show c.reset.1.specialMeter = 0
    unfold CharacterBase.reset
    rw [CharacterBase.changeState_specialMeter]
  | fire callback elapsed => exact (CharacterBase.fire_specialMeter c callback elapsed).trans h0
  | updatePlayer g deltaTime =>
    exact (GameEngine.updatePlayer_specialMeter g c deltaTime).trans h0

theorem Mia.run_specialMeter (ops : List MiaOp) :
    ∀ c : CharacterBase, c.specialMeter = 0 → (∀ op ∈ ops, op.ownName = true) →
      (Mia.run c ops).specialMeter = 0 := by
  induction ops with
  | nil => intro c h0 _; exact h0
  | cons op rest ih =>
    intro c h0 hops
    exact ih (Mia.apply c op)
      (Mia.apply_specialMeter c op h0 (hops op (List.mem_cons_self op rest)))
      (fun o ho => hops o (List.mem_cons_of_mem op ho))

/-- A move with a non-zero argument faces left or right. -/
theorem CharacterBase.move_direction_of_ne_zero (c : CharacterBase) (direction : ℚ)
    (hd : direction ≠ 0) (hc : c.direction = 1 ∨ c.direction = -1) :
    (c.move direction).1.direction = 1 ∨ (c.move direction).1.direction = -1 := by
  unfold CharacterBase.move
  split_ifs
  · exact hc
  · rw [CharacterBase.changeState_direction]
    simp only []
    rcases lt_or_gt_of_ne hd with hneg | hpos
    · right
      rw [sign_neg hneg]
      simp
    · left
      rw [sign_pos hpos]
      simp

/-! ## Claims -/

/-- C1 (evaluated on the code): player 1 presses down, down, up, special. The actions recorded
for player 1 contain the `superCombo` pattern as a contiguous run, nothing was purged, and
`checkSpecialMove(1)` returns `null`: the buffer entry is `{ input, timestamp }`, so the
`player` and `action` read on it are `undefined`. -/
theorem checkSpecialMove_misses_recorded_superCombo :
    superComboKeys.inputBuffer.length = 4 ∧
    specialMovePatterns.lookup "superCombo" =
      some [.str "down", .str "down", .str "up", .str "special"] ∧
    matchesPattern (superComboKeys.recordedActions (.num 1))
      [.str "down", .str "down", .str "up", .str "special"] = true ∧
    superComboKeys.checkSpecialMove (.num 1) = none := by
  refine ⟨by decide, rfl, by decide, by decide⟩

/-- C2: `matchesPattern(inputs, pattern)` is true exactly when `pattern` occurs in `inputs`
as a contiguous run starting at some index `i` with `i + pattern.length <= inputs.length`;
in particular it is false when `inputs` is shorter than `pattern`. -/
theorem matchesPattern_iff_contiguous {α : Type} [DecidableEq α] (inputs pattern : List α) :
    (matchesPattern inputs pattern = true ↔
      ∃ i, i + pattern.length ≤ inputs.length ∧
        ∀ j, j < pattern.length → inputs[i + j]? = pattern[j]?) ∧
    (inputs.length < pattern.length → matchesPattern inputs pattern = false) := by
  constructor
  · unfold matchesPattern
    by_cases hlen : inputs.length < pattern.length
    · simp only [hlen, if_true, Bool.false_eq_true, false_iff]
      rintro ⟨i, hi, _⟩
      omega
    · simp only [hlen, if_false]
      rw [matchesPattern.outer_iff]
      constructor
      · rintro ⟨k, _, hk, hin⟩
        refine ⟨k, by omega, ?_⟩
        intro j hj
        simpa using (matchesPattern.inner_iff inputs pattern k pattern.length 0).1 hin j hj
      · rintro ⟨i, hi, hall⟩
        refine ⟨i, Nat.zero_le i, by omega, ?_⟩
        apply (matchesPattern.inner_iff inputs pattern i pattern.length 0).2
        intro t ht
        simpa using hall t ht
  · intro hlen
    simp [matchesPattern, hlen]

/-- C3 (evaluated on the code): a character that has attacked once is not blocking and has
health 100; `takeDamage(5)` lowers its health to 95 but throws a `TypeError` in
`changeState('hurt')` (the current sprite is `undefined` since `changeState('attacking')`),
and the state stays `attacking` instead of becoming `hurt`. -/
theorem takeDamage_after_attack_not_hurt :
    afterLightPunch.isBlocking = false ∧ afterLightPunch.health = 100 ∧
    afterLightPunch.currentSprite = none ∧
    (afterLightPunch.takeDamage 5).1.health = 95 ∧
    (afterLightPunch.takeDamage 5).1.state = "attacking" ∧
    (afterLightPunch.takeDamage 5).2 = .threw .typeError := by
  rw [afterLightPunch_eq]
  simp +decide [CharacterBase.takeDamage, CharacterBase.new, CharacterBase.changeState]
  norm_num

/-- C4 (evaluated on the code): right after `attack('lightPunch')`, before any time has
elapsed (startup is 3 frames), the attacker has `isAttacking = true` and `currentHitbox` set
to the rectangle of the move, and no timer is pending; after any number of frame updates
both are still as they were. The hit check of the engine reads that hitbox at once: with the
players as the repository has them, `checkHitboxCollision` goes past the test of the hitbox
and throws at `defender.getBounds()`, where it returns a falsy value at once for an attacker
without a hitbox. No damage follows: `resolveHit` throws at `attacker.getCurrentAttack()`
and changes neither player. -/
theorem attack_hitbox_live_from_start :
    afterLightPunch.isAttacking = true ∧
    afterLightPunch.currentHitbox = some ⟨-30, -50, 60, 40⟩ ∧
    afterLightPunch.timers = [] ∧
    (∀ deltas : List ℚ,
      (afterLightPunch.passives (deltas.map Passive.update)).isAttacking = true ∧
      (afterLightPunch.passives (deltas.map Passive.update)).currentHitbox =
        some ⟨-30, -50, 60, 40⟩) ∧
    (∀ (intersects : Rectangle → Rectangle → Bool) (defender : CharacterBase),
      GameEngine.checkHitboxCollision PlayerMethods.absent intersects afterLightPunch defender =
        .threw .typeError ∧
      GameEngine.checkHitboxCollision PlayerMethods.absent intersects CharacterBase.new defender =
        .returned false) ∧
    (∀ defender : CharacterBase,
      GameEngine.resolveHit PlayerMethods.absent afterLightPunch defender =
        ((afterLightPunch, defender), .threw .typeError)) := by
  have h := afterLightPunch_eq
  refine ⟨by decide, by decide, by decide, ?_, ?_, ?_⟩
  · intro deltas
    obtain ⟨h1, h2, _, _⟩ :=
      CharacterBase.updates_keep_attack deltas afterLightPunch (by decide)
    exact ⟨h1.trans (by decide), h2.trans (by decide)⟩
  · intro intersects defender
    constructor
    · rw [h]
      rfl
    · rfl
  · intro defender
    rfl

/-- C5 (as stated, refuted): a character that is invulnerable (hit once, then in state
`victory`, health 95) and receives `takeDamage(5)` directly loses health (90) and enters
`hurt`: `takeDamage` does not look at `isInvulnerable`. -/
theorem takeDamage_ignores_invulnerability :
    invulnerableVictor.isInvulnerable = true ∧ invulnerableVictor.health = 95 ∧
    invulnerableVictor.state = "victory" ∧
    (invulnerableVictor.takeDamage 5).1.health = 90 ∧
    (invulnerableVictor.takeDamage 5).1.state = "hurt" := by
  rw [invulnerableVictor_eq]
  simp +decide [CharacterBase.takeDamage, CharacterBase.changeState, CharacterBase.new]
  norm_num

/-- C5 (amended): a hit delivered through `GameEngine.resolveHit` to a defender with
`isInvulnerable = true` changes neither player, whatever the attacker reports as its
current attack; in particular the health and the state of the defender stay. -/
theorem resolveHit_invulnerable_unchanged (m : PlayerMethods)
    (attacker defender : CharacterBase) (hinv : defender.isInvulnerable = true) :
    (GameEngine.resolveHit m attacker defender).1 = (attacker, defender) := by
  unfold GameEngine.resolveHit
  rcases m.getCurrentAttack attacker with (_ | hit) | e <;> simp [hinv]

theorem resolveHit_invulnerable_unchanged_witness :
    invulnerableVictor.isInvulnerable = true ∧
    (GameEngine.resolveHit lightPunchMethods afterLightPunch invulnerableVictor).1 =
      (afterLightPunch, invulnerableVictor) :=
  ⟨by rw [invulnerableVictor_eq],
    resolveHit_invulnerable_unchanged lightPunchMethods afterLightPunch invulnerableVictor
      (by rw [invulnerableVictor_eq])⟩

/-- C6 (as stated, refuted): a fresh blocking character (health 100) receives
`takeDamage(1)`. In binary64 the health becomes 7022800668930867 / 2 ^ 46 (printed 99.8),
which is not 100 - 0.2: the health went down by more than 0.2. After two more such hits
the health is 6994653171259801 / 2 ^ 46 (printed 99.39999999999999), not 100 - 0.6, and not
even the double nearest to it. -/
theorem takeDamage_blocking_not_exact_fifth :
    blockingDefender.isBlocking = true ∧ blockingDefender.health = 100 ∧
    CharacterBase.takeDamage.health64 blockingDefender 1 =
      .finite (7022800668930867 / 2 ^ 46) ∧
    (2 : ℚ) / 10 * 1 < 100 - 7022800668930867 / 2 ^ 46 ∧
    CharacterBase.takeDamage.health64 (blockingAt (7022800668930867 / 2 ^ 46)) 1 =
      .finite (3504363460047667 / 2 ^ 45) ∧
    CharacterBase.takeDamage.health64 (blockingAt (3504363460047667 / 2 ^ 45)) 1 =
      .finite (6994653171259801 / 2 ^ 46) ∧
    (2 : ℚ) / 10 * 3 < 100 - 6994653171259801 / 2 ^ 46 ∧
    Float64.round (100 - 2 / 10 * 3) = .finite (3497326585629901 / 2 ^ 45) ∧
    (6994653171259801 : ℚ) / 2 ^ 46 < 3497326585629901 / 2 ^ 45 := by
  refine ⟨rfl, rfl, by decide!, by norm_num, by decide!, by decide!, by norm_num, by decide!,
    by norm_num⟩

/-- C6 (amended): on a blocking character whose health is a whole number `h` below `2 ^ 53`,
`takeDamage(a)` with `a = 5 * k` for a natural number `k <= h` (so `a >= 0` and
`0.2 * a <= h`) lowers the health by exactly `0.2 * a = k`, in binary64 as in exact
arithmetic. -/
theorem takeDamage_blocking_fifth_of_multiple (c : CharacterBase) (h k : ℕ)
    (hb : c.isBlocking = true) (hh : c.health = h) (h53 : h < 2 ^ 53) (hk : k ≤ h) :
    CharacterBase.takeDamage.health64 c (5 * k) = .finite (c.health - 2 / 10 * (5 * k)) ∧
    (c.takeDamage (5 * k)).1.health = c.health - 2 / 10 * (5 * k) := by
  have hval : c.health - 2 / 10 * (5 * (k : ℚ)) = ((h - k : ℕ) : ℚ) := by
    rw [hh, Nat.cast_sub hk]
    ring
  constructor
  · unfold CharacterBase.takeDamage.health64
    simp only [hb, if_true, Float64.mul, Float64.round_fifth]
    rw [Float64.round_fifth_mul k (lt_of_le_of_lt hk h53)]
    simp only [Float64.sub]
    have hsub : c.health - (k : ℚ) = ((h - k : ℕ) : ℚ) := by
      rw [hh, Nat.cast_sub hk]
    rw [hsub, Float64.round_natCast _ (lt_of_le_of_lt (Nat.sub_le h k) h53), hval]
    simp [Float64.max]
  · have hs := (CharacterBase.takeDamage_health c (5 * k)).1
    simp only [hb, if_true] at hs
    rw [hs, max_eq_right]
    · ring
    · have e : c.health - 5 * (k : ℚ) * (2 / 10) = ((h - k : ℕ) : ℚ) := by
        rw [← hval]
        ring
      rw [e]
      positivity

/-- A 10-damage attack against a fresh blocking defender takes its health from 100 to 98. -/
theorem takeDamage_blocking_fifth_of_multiple_witness :
    blockingDefender.health = 100 ∧
    CharacterBase.takeDamage.health64 blockingDefender (5 * (2 : ℕ)) = .finite 98 ∧
    (blockingDefender.takeDamage (5 * (2 : ℕ))).1.health = 98 := by
  have h := takeDamage_blocking_fifth_of_multiple blockingDefender 100 2 rfl
    (by norm_num [blockingDefender, CharacterBase.new]) (by norm_num) (by norm_num)
  have h100 : blockingDefender.health = 100 := rfl
  rw [h100] at h
  have e : (100 : ℚ) - 2 / 10 * (5 * ((2 : ℕ) : ℚ)) = 98 := by norm_num
  rw [e] at h
  exact ⟨h100, h.1, h.2⟩

/-- C7 (as stated, refuted): a fresh character (health 100 of 100) that receives
`takeDamage(-1)` ends with health 101, above `maxHealth`. -/
theorem takeDamage_negative_exceeds_maxHealth :
    0 ≤ CharacterBase.new.health ∧ CharacterBase.new.health ≤ CharacterBase.new.maxHealth ∧
    (CharacterBase.new.takeDamage (-1)).1.health = 101 ∧
    (CharacterBase.new.takeDamage (-1)).1.maxHealth = 100 ∧
    ¬ ((CharacterBase.new.takeDamage (-1)).1.health ≤
        (CharacterBase.new.takeDamage (-1)).1.maxHealth) := by
  have hh := CharacterBase.takeDamage_health CharacterBase.new (-1)
  rw [hh.1, hh.2]
  norm_num [CharacterBase.new]

/-- C7 (amended): for a character whose health is in `[0, maxHealth]` and every amount
`a >= 0`, blocking or not, the health after `takeDamage(a)` is in `[0, maxHealth]`. -/
theorem takeDamage_health_bounds (c : CharacterBase) (a : ℚ) (hlo : 0 ≤ c.health)
    (hhi : c.health ≤ c.maxHealth) (h0 : 0 ≤ a) :
    0 ≤ (c.takeDamage a).1.health ∧
      (c.takeDamage a).1.health ≤ (c.takeDamage a).1.maxHealth := by
  have hh := CharacterBase.takeDamage_health c a
  rw [hh.1, hh.2]
  refine ⟨le_max_left _ _, max_le (by linarith) ?_⟩
  split_ifs <;> linarith

theorem takeDamage_health_bounds_witness :
    0 ≤ (blockingDefender.takeDamage 1000).1.health ∧
      (blockingDefender.takeDamage 1000).1.health ≤
        (blockingDefender.takeDamage 1000).1.maxHealth :=
  takeDamage_health_bounds blockingDefender 1000 (by norm_num [blockingDefender, CharacterBase.new])
    (by norm_num [blockingDefender, CharacterBase.new]) (by norm_num)

/-- C8: for a known move name and a meter strictly below the cost of the move,
`executeSpecialMove` returns `false` and leaves the whole character as it was (meter, state,
`isAttacking` and `currentHitbox` included). -/
theorem executeSpecialMove_insufficient_meter (c : CharacterBase) (moveName : String)
    (move : SpecialMoveDef) (hm : Mia.setupSpecialMoves.lookup moveName = some move)
    (hlt : c.specialMeter < move.meterCost) :
    Mia.executeSpecialMove c moveName = (c, .returned false) := by
  unfold Mia.executeSpecialMove
  simp [objectLookup_of_lookup _ _ _ hm, hlt]

/-- The move `tideWave` costs 25; with the meter at 20 the call returns `false` and the meter is
still 20. -/
theorem executeSpecialMove_insufficient_meter_witness :
    (Mia.setupSpecialMoves.lookup "tideWave").map (fun move => move.meterCost) = some 25 ∧
    Mia.executeSpecialMove miaMeter20 "tideWave" = (miaMeter20, .returned false) ∧
    (Mia.executeSpecialMove miaMeter20 "tideWave").1.specialMeter = 20 := by
  have h := executeSpecialMove_insufficient_meter miaMeter20 "tideWave"
    ⟨"Tide Wave", 15, 25, 8, 5, 12, ⟨-60, -40, 120, 80⟩, 12,
      ["down", "downforward", "forward", "punch"]⟩ (by decide)
    ((Float64.ofNat_lt_finite 20 25).2 (by norm_num))
  refine ⟨by decide, h, ?_⟩
  rw [h]
  rfl

/-- C9 (evaluated on the code): a `Mia` that has attacked once and holds 25 meter calls
`executeSpecialMove('tideWave')` (cost 25): the meter is deducted (0), `isAttacking` and
the hitbox are set, but `changeState('special')` throws a `TypeError` (the current sprite
is `undefined` since `changeState('attacking')`): the call does not return `true` and the
state stays `attacking`. -/
theorem executeSpecialMove_after_attack_throws :
    miaAfterLightPunch.specialMeter = 25 ∧
    (Mia.setupSpecialMoves.lookup "tideWave").map (fun move => move.meterCost) = some 25 ∧
    (Mia.executeSpecialMove miaAfterLightPunch "tideWave").2 = .threw .typeError ∧
    (Mia.executeSpecialMove miaAfterLightPunch "tideWave").1.state = "attacking" ∧
    (Mia.executeSpecialMove miaAfterLightPunch "tideWave").1.specialMeter = 0 := by
  rw [miaAfterLightPunch_eq]
  have hnlt : ¬ ((25 : Float64) < Float64.finite 25) := by
    rw [Float64.ofNat_lt_finite]
    norm_num
  have hsub : (25 : Float64) - Float64.finite 25 = 0 := Float64.sub_self_finite 25
  simp +decide [Mia.executeSpecialMove, objectLookup, Mia.setupSpecialMoves, List.lookup,
    CharacterBase.changeState, Mia.new, CharacterBase.new, hnlt, hsub]

/-- C10 (as stated, refuted): a defeated character (state `defeat`) calls
`attack('lightPunch')`: the attack is not rejected, `isAttacking` and `currentHitbox` are
set and the state becomes `attacking`. -/
theorem attack_from_defeat_not_rejected :
    defeated.state = "defeat" ∧ defeated.isAttacking = false ∧
    defeated.currentHitbox = none ∧
    (defeated.attack "lightPunch").1.state = "attacking" ∧
    (defeated.attack "lightPunch").1.isAttacking = true ∧
    (defeated.attack "lightPunch").1.currentHitbox = some ⟨-30, -50, 60, 40⟩ := by
  rw [defeated_eq]
  decide

/-- C10 (amended): for every character whose state is `attacking` or `hurt` and every
attack type, `attack(type)` returns at once and leaves the whole character as it was
(state, `isAttacking` and `currentHitbox` included). -/
theorem attack_rejected_when_attacking_or_hurt (c : CharacterBase) (type : String)
    (hs : c.state = "attacking" ∨ c.state = "hurt") :
    c.attack type = (c, .returned ()) := by
  unfold CharacterBase.attack
  simp [hs]

theorem attack_rejected_when_attacking_or_hurt_witness :
    afterLightPunch.state = "attacking" ∧
    afterLightPunch.attack "heavyKick" = (afterLightPunch, .returned ()) :=
  ⟨by decide, attack_rejected_when_attacking_or_hurt afterLightPunch "heavyKick"
    (Or.inl (by decide))⟩

/-- C11 (as stated, refuted): a `Mia` in state `hurt` whose meter (25) covers the cost of
`tideWave` (25) calls `executeSpecialMove('tideWave')`: the call returns `true`, the state
becomes `special` and the meter drops to 0. -/
theorem executeSpecialMove_enters_from_hurt :
    miaHurtMeter25.state = "hurt" ∧ miaHurtMeter25.specialMeter = 25 ∧
    (Mia.executeSpecialMove miaHurtMeter25 "tideWave").2 = .returned true ∧
    (Mia.executeSpecialMove miaHurtMeter25 "tideWave").1.state = "special" ∧
    (Mia.executeSpecialMove miaHurtMeter25 "tideWave").1.specialMeter = 0 := by
  have h := Mia.executeSpecialMove_of_sprite miaHurtMeter25 "tideWave" "hurt"
    ⟨"Tide Wave", 15, 25, 8, 5, 12, ⟨-60, -40, 120, 80⟩, 12,
      ["down", "downforward", "forward", "punch"]⟩
    (by rw [miaHurtMeter25_eq]) (by decide)
    (by
      have hm : miaHurtMeter25.specialMeter = 25 := by rw [miaHurtMeter25_eq]
      rw [hm, Float64.ofNat_lt_finite]
      norm_num)
  have hm : miaHurtMeter25.specialMeter = 25 := by rw [miaHurtMeter25_eq]
  refine ⟨by rw [miaHurtMeter25_eq], hm, h.1, h.2.2.1, ?_⟩
  rw [h.2.1, hm]
  exact Float64.sub_self_finite 25

/-- C11 (amended): `executeSpecialMove` does not look at the state. For every `Mia`, it
returns `false` exactly when the move name is no property of the table of special moves
(neither a configured move nor a name inherited from `Object.prototype`), or names a
configured move whose cost the meter is below; and then the whole character (state and
meter included) is as it was. -/
theorem executeSpecialMove_false_iff (c : CharacterBase) (moveName : String) :
    ((Mia.executeSpecialMove c moveName).2 = .returned false ↔
      ((Mia.setupSpecialMoves.lookup moveName = none ∧ moveName ∉ objectPrototypeKeys) ∨
        ∃ move, Mia.setupSpecialMoves.lookup moveName = some move ∧
          c.specialMeter < move.meterCost)) ∧
    ((Mia.executeSpecialMove c moveName).2 = .returned false →
      (Mia.executeSpecialMove c moveName).1 = c) := by
  unfold Mia.executeSpecialMove
  cases hl : Mia.setupSpecialMoves.lookup moveName with
  | none =>
    by_cases hn : moveName ∈ objectPrototypeKeys
    · rw [(objectLookup_inherited_iff _ _).2 ⟨hl, hn⟩]
      rcases CharacterBase.changeState
        { c with specialMeter := .nan, isAttacking := true, currentHitbox := none }
        "special" with ⟨c1, v | e⟩ <;> simp [hn]
    · rw [(objectLookup_missing_iff _ _).2 ⟨hl, hn⟩]
      simp [hn]
  | some move =>
    rw [objectLookup_of_lookup _ _ _ hl]
    by_cases hlt : c.specialMeter < move.meterCost
    · simp [hlt]
    · simp only [hlt, if_false]
      rcases CharacterBase.changeState
        { c with specialMeter := c.specialMeter - move.meterCost, isAttacking := true,
                 currentHitbox := some move.hitbox } "special" with ⟨c1, v | e⟩ <;> simp [hlt]

/-- C12 (evaluated on the code): `attack('lightPunch')` on a fresh character throws a
`TypeError` (`sprites` has no key `attacking`), leaves the state `attacking` with the hitbox
set, and schedules no timer, so nothing returns the character to idle. The same holds for
every configured attack and every character whose state is neither `attacking` nor
`hurt`. -/
theorem attack_throws_before_scheduling :
    CharacterBase.new.state = "idle" ∧
    (CharacterBase.new.attack "lightPunch").2 = .threw .typeError ∧
    (CharacterBase.new.attack "lightPunch").1.state = "attacking" ∧
    (CharacterBase.new.attack "lightPunch").1.currentHitbox = some ⟨-30, -50, 60, 40⟩ ∧
    (CharacterBase.new.attack "lightPunch").1.timers = [] ∧
    (∀ (c : CharacterBase) (type : String) (attack : AttackDef),
      c.state ≠ "attacking" → c.state ≠ "hurt" → setupAttacks.lookup type = some attack →
        (c.attack type).2 = .threw .typeError ∧ (c.attack type).1.timers = c.timers) := by
  refine ⟨rfl, by decide, by decide, by decide, by decide, ?_⟩
  intro c type attack h1 h2 hl
  have h := CharacterBase.attack_throws c type attack h1 h2 hl
  exact ⟨h.1, h.2.1⟩

/-- C13 (evaluated on the code): a character put into `hurt` by `takeDamage(5)` (health 95)
and given no command: `update(1)` throws a `TypeError` (`updateHurtState` is not defined),
and after any sequence of frame updates and timer callbacks the state is still `hurt`. -/
theorem hurt_never_returns_to_idle :
    hurtOnce.state = "hurt" ∧ hurtOnce.health = 95 ∧
    hurtOnce.timers = [{ delay := 1000, callback := .invulnerabilityEnd }] ∧
    (hurtOnce.update 1).2 = .threw .typeError ∧
    (∀ events : List Passive, (hurtOnce.passives events).state = "hurt") := by
  have hs : hurtOnce.state = "hurt" := by rw [hurtOnce_eq]
  refine ⟨hs, by rw [hurtOnce_eq], by rw [hurtOnce_eq],
    CharacterBase.update_hurt_throws hurtOnce 1 hs, ?_⟩
  intro events
  exact CharacterBase.passives_state_hurt events hurtOnce hs

/-- C14 (evaluated on the code): a character that has attacked once (health 100) receives
`takeDamage(100)`: the health is 0, but `changeState('hurt')` throws a `TypeError` (the
current sprite is `undefined` since `changeState('attacking')`), `defeat()` is not reached
and the state stays `attacking`. -/
theorem takeDamage_after_attack_not_defeated :
    afterLightPunch.health = 100 ∧
    (afterLightPunch.takeDamage 100).1.health = 0 ∧
    (afterLightPunch.takeDamage 100).1.state = "attacking" ∧
    (afterLightPunch.takeDamage 100).2 = .threw .typeError := by
  rw [afterLightPunch_eq]
  simp +decide [CharacterBase.takeDamage, CharacterBase.new, CharacterBase.changeState]

/-- C15 (as stated, refuted): a defeated character (health 0, state `defeat`) calls
`move(1)`: the state becomes `walk`. -/
theorem move_leaves_defeat :
    defeated.state = "defeat" ∧ defeated.health = 0 ∧
    (defeated.move 1).1.state = "walk" := by
  rw [defeated_eq]
  simp +decide [CharacterBase.move, CharacterBase.changeState, CharacterBase.new]

/-- C15 (amended): once the state is `defeat`, `update` leaves it `defeat`, and so does
`takeDamage(a)` for `a >= 0` on a character whose health is 0. (`move`, `jump`, `attack`
and `executeSpecialMove` have no guard on `defeat`.) -/
theorem defeat_kept_by_update_and_takeDamage (c : CharacterBase) (hs : c.state = "defeat") :
    (∀ deltaTime : ℚ, (c.update deltaTime).1.state = "defeat") ∧
    (∀ a : ℚ, 0 ≤ a → c.health ≤ 0 → (c.takeDamage a).1.state = "defeat") := by
  constructor
  · intro deltaTime
    rw [CharacterBase.update_state, hs]
  · intro a h0 hh
    have hd : 0 ≤ (if c.isBlocking = true then a * (2 / 10) else a) := by
      split_ifs <;> linarith
    have hle : max 0 (c.health - (if c.isBlocking = true then a * (2 / 10) else a)) ≤ 0 :=
      max_le (le_refl 0) (by linarith)
    cases hk : c.currentSprite with
    | none =>
      unfold CharacterBase.takeDamage CharacterBase.changeState
      simp +decide [hs, hk]
    | some k =>
      rw [CharacterBase.takeDamage_of_sprite c a k hk]
      simp [hle]

theorem defeat_kept_by_update_and_takeDamage_witness :
    defeated.state = "defeat" ∧ (defeated.update 1).1.state = "defeat" ∧
    (defeated.takeDamage 12).1.state = "defeat" := by
  have hs : defeated.state = "defeat" := by rw [defeated_eq]
  have h := defeat_kept_by_update_and_takeDamage defeated hs
  exact ⟨hs, h.1 1, h.2 12 (by norm_num) (by rw [defeated_eq])⟩

/-- C16: with two players of different health (none negative) registered in the engine, in
either insertion order, `determineWinner` returns the one whose health is strictly
higher. -/
theorem determineWinner_higher_health (g : GameEngine) (ida idb : String)
    (a b : CharacterBase) (hp : g.players = [(ida, a), (idb, b)])
    (hpos : 0 ≤ a.health ∧ 0 ≤ b.health) (hne : a.health ≠ b.health) :
    (b.health < a.health → g.determineWinner = some (0, ida, a)) ∧
    (a.health < b.health → g.determineWinner = some (1, idb, b)) ∧
    (b.health < a.health ∨ a.health < b.health) := by
  rw [GameEngine.determineWinner_two g ida idb a b hp hpos.1]
  refine ⟨fun h => ?_, fun h => ?_, ?_⟩
  · simp [not_lt.mpr (le_of_lt h)]
  · simp [h]
  · rcases lt_trichotomy a.health b.health with h | h | h
    · exact Or.inr h
    · exact absurd h hne
    · exact Or.inl h

/-- With health 60 against 40 the 60-health player wins, whichever was inserted first. -/
theorem determineWinner_higher_health_witness :
    health60.health = 60 ∧ health40.health = 40 ∧
    GameEngine.determineWinner
      { GameEngine.new 720 with players := [("p1", health60), ("p2", health40)] } =
        some (0, "p1", health60) ∧
    GameEngine.determineWinner
      { GameEngine.new 720 with players := [("p1", health40), ("p2", health60)] } =
        some (1, "p2", health60) := by
  have h60 := health60_eq.1
  have h40 := health60_eq.2
  refine ⟨h60, h40, ?_, ?_⟩
  · exact (determineWinner_higher_health _ "p1" "p2" health60 health40 rfl
      (by rw [h60, h40]; norm_num) (by rw [h60, h40]; norm_num)).1
      (by rw [h60, h40]; norm_num)
  · exact (determineWinner_higher_health _ "p1" "p2" health40 health60 rfl
      (by rw [h60, h40]; norm_num) (by rw [h60, h40]; norm_num)).2.1
      (by rw [h60, h40]; norm_num)

/-- C17 (as stated, refuted): with two fresh players (health 100 each) `determineWinner`
does not return `null`: it returns the player inserted first. -/
theorem determineWinner_equal_health_not_null :
    evenEngine.players = [("p1", CharacterBase.new), ("p2", CharacterBase.new)] ∧
    evenEngine.determineWinner = some (0, "p1", CharacterBase.new) ∧
    evenEngine.determineWinner ≠ none := by
  have h := GameEngine.determineWinner_two evenEngine "p1" "p2" CharacterBase.new
    CharacterBase.new rfl (by norm_num [CharacterBase.new])
  simp only [lt_self_iff_false, if_false] at h
  exact ⟨rfl, h, by rw [h]; simp⟩

/-- C17 (amended): with two players of equal health (not negative) `determineWinner`
returns the player inserted first, and `endMatch` hands that player to
`triggerVictorySequence`. -/
theorem determineWinner_equal_health_first (g : GameEngine) (ida idb : String)
    (a b : CharacterBase) (hp : g.players = [(ida, a), (idb, b)]) (ha : 0 ≤ a.health)
    (heq : a.health = b.health) :
    g.determineWinner = some (0, ida, a) ∧
    ∀ env : EngineEnv, g.endMatch env =
      GameEngine.triggerVictorySequence env
        { g.pauseGame with endMatchCalls := g.endMatchCalls + 1 } (some (0, ida, a)) := by
  have h := GameEngine.determineWinner_two g ida idb a b hp ha
  simp only [heq, lt_self_iff_false, if_false] at h
  refine ⟨h, fun env => ?_⟩
  unfold GameEngine.endMatch
  simp only []
  have h2 := GameEngine.determineWinner_two
    { g.pauseGame with endMatchCalls := g.endMatchCalls + 1 } ida idb a b hp ha
  simp only [heq, lt_self_iff_false, if_false] at h2
  rw [h2]

theorem determineWinner_equal_health_first_witness :
    evenEngine.determineWinner = some (0, "p1", CharacterBase.new) :=
  (determineWinner_equal_health_first evenEngine "p1" "p2" CharacterBase.new
    CharacterBase.new rfl (by norm_num [CharacterBase.new]) rfl).1

/-- C18 (as stated, refuted): an unpaused engine with the timer at 99 and a player at
health 0 runs a tick of 1 frame: `endMatch` is not invoked and the engine is not paused. -/
theorem update_ignores_knockout :
    knockoutEngine.isPaused = false ∧ knockoutEngine.gameTime = 99 ∧
    defeated.health = 0 ∧
    knockoutEngine.players = [("p1", defeated), ("p2", CharacterBase.new)] ∧
    (knockoutEngine.update EngineEnv.absent 1).1.isPaused = false ∧
    (knockoutEngine.update EngineEnv.absent 1).1.endMatchCalls = 0 := by
  have h := GameEngine.update_matchFields EngineEnv.absent knockoutEngine 1 rfl
  rw [GameEngine.updateTimer_matchFields EngineEnv.absent knockoutEngine 1
    (by norm_num [knockoutEngine, GameEngine.new])] at h
  have hpos : ¬ (knockoutEngine.gameTime - 1 / 60 ≤ 0) := by
    norm_num [knockoutEngine, GameEngine.new]
  simp only [hpos, if_false, GameEngine.matchFields, Prod.mk.injEq] at h
  exact ⟨rfl, rfl, by rw [defeated_eq], rfl, h.1, h.2.1⟩

/-- C18 (amended): the tick ends the match on the timer only. For every unpaused engine
whose timer is above 0, whatever the health of the players: when the timer stays above 0
after the tick, `endMatch` is not invoked and the engine is not paused; when the tick
brings the timer to 0 or below, `endMatch` is invoked once and the engine is paused. -/
theorem update_ends_match_on_timeout_only (env : EngineEnv) (g : GameEngine) (deltaTime : ℚ)
    (hp : g.isPaused = false) (ht : 0 < g.gameTime) :
    (0 < g.gameTime - deltaTime / 60 →
      (g.update env deltaTime).1.isPaused = false ∧
        (g.update env deltaTime).1.endMatchCalls = g.endMatchCalls) ∧
    (g.gameTime - deltaTime / 60 ≤ 0 →
      (g.update env deltaTime).1.isPaused = true ∧
        (g.update env deltaTime).1.endMatchCalls = g.endMatchCalls + 1 ∧
        (g.update env deltaTime).1.gameTime = 0) := by
  have h := GameEngine.update_matchFields env g deltaTime hp
  rw [GameEngine.updateTimer_matchFields env g deltaTime ht] at h
  constructor
  · intro hpos
    simp only [not_le.mpr hpos, if_false, GameEngine.matchFields, Prod.mk.injEq] at h
    exact ⟨h.1.trans hp, h.2.1⟩
  · intro hle
    simp only [hle, if_true, GameEngine.matchFields, Prod.mk.injEq] at h
    exact h

theorem update_ends_match_on_timeout_only_witness :
    (knockoutEngine.update EngineEnv.absent 1).1.isPaused = false ∧
    (knockoutEngine.update EngineEnv.absent 1).1.endMatchCalls = 0 :=
  (update_ends_match_on_timeout_only EngineEnv.absent knockoutEngine 1 rfl
    (by norm_num [knockoutEngine, GameEngine.new])).1
    (by norm_num [knockoutEngine, GameEngine.new])

/-- C19: while the engine is paused, `update(deltaTime)` returns at once: the timer, every
player and the counts of `endMatch` and `resolveHit` calls are as they were. -/
theorem update_paused_unchanged (env : EngineEnv) (g : GameEngine) (deltaTime : ℚ)
    (hp : g.isPaused = true) : g.update env deltaTime = (g, .returned ()) := by
  unfold GameEngine.update
  simp [hp]

theorem update_paused_unchanged_witness :
    knockoutEngine.pauseGame.isPaused = true ∧
    knockoutEngine.pauseGame.update EngineEnv.absent 1 =
      (knockoutEngine.pauseGame, .returned ()) :=
  ⟨rfl, update_paused_unchanged EngineEnv.absent knockoutEngine.pauseGame 1 rfl⟩

/-- C20: whatever the methods that no class defines do (`getCurrentAttack` reporting an
attack, reporting none, or not being there at all), provided a knockback does not clear
`isInvulnerable`: a second `resolveHit` right after the first changes neither player, so the
health of the defender is the one after the first call. With the players as the repository
has them the first call throws at `getCurrentAttack` and changes nothing either. -/
theorem resolveHit_twice_damage_once (m : PlayerMethods) (attacker defender : CharacterBase)
    (hk : ∀ (c : CharacterBase) (k d : ℚ), c.isInvulnerable = true →
      (m.applyKnockback c k d).1.isInvulnerable = true) :
    (GameEngine.resolveHit m (GameEngine.resolveHit m attacker defender).1.1
        (GameEngine.resolveHit m attacker defender).1.2).1 =
      (GameEngine.resolveHit m attacker defender).1 ∧
    (GameEngine.resolveHit m (GameEngine.resolveHit m attacker defender).1.1
        (GameEngine.resolveHit m attacker defender).1.2).1.2.health =
      (GameEngine.resolveHit m attacker defender).1.2.health ∧
    GameEngine.resolveHit PlayerMethods.absent attacker defender =
      ((attacker, defender), .threw .typeError) := by
  have ha := resolveHit_attacker m attacker defender
  have key : (GameEngine.resolveHit m (GameEngine.resolveHit m attacker defender).1.1
        (GameEngine.resolveHit m attacker defender).1.2).1 =
      (GameEngine.resolveHit m attacker defender).1 := by
    rcases resolveHit_defender m attacker defender hk with hd | hd
    · rw [ha, hd]
    · exact resolveHit_invulnerable_second m _ _ hd
  exact ⟨key, by rw [key], rfl⟩

/-- The attacker of the scenario against a fresh defender, with the players as the
repository has them: the health of the defender is 100 after the first call and after the
second. -/
theorem resolveHit_twice_damage_once_witness :
    (GameEngine.resolveHit PlayerMethods.absent afterLightPunch CharacterBase.new).1.2.health =
      100 ∧
    (GameEngine.resolveHit PlayerMethods.absent
        (GameEngine.resolveHit PlayerMethods.absent afterLightPunch CharacterBase.new).1.1
        (GameEngine.resolveHit PlayerMethods.absent afterLightPunch CharacterBase.new).1.2
      ).1.2.health = 100 := by
  have h := resolveHit_twice_damage_once PlayerMethods.absent afterLightPunch CharacterBase.new
    (fun c _ _ hc => hc)
  have h100 :
      (GameEngine.resolveHit PlayerMethods.absent afterLightPunch CharacterBase.new).1.2.health =
        100 := rfl
  rw [h.2.1]
  exact ⟨h100, h100⟩

/-- C21 (evaluated on the code): every configured move lasts less than the 1000 ms of the
invulnerability, but a normal attack does not end when its frames have run: after
`attack('lightPunch')` (10 frames, 166.7 ms) no timer is pending, and after any number of
frame updates the attacker still has `isAttacking = true` and the hitbox of that punch. A
defender hit once is invulnerable with the one timer of 1000 ms, and is vulnerable again
when it fires: the invulnerability has ended and the activation has not. -/
theorem attack_outlasts_invulnerability :
    (∀ entry ∈ setupAttacks,
      (entry.2.startup + entry.2.active + entry.2.recovery) * (1667 / 100) < 1000) ∧
    (∀ entry ∈ Mia.setupSpecialMoves,
      (entry.2.startup + entry.2.active + entry.2.recovery) * (1667 / 100) < 1000) ∧
    afterLightPunch.timers = [] ∧
    (∀ deltas : List ℚ,
      (afterLightPunch.passives (deltas.map Passive.update)).isAttacking = true ∧
      (afterLightPunch.passives (deltas.map Passive.update)).currentHitbox =
        some ⟨-30, -50, 60, 40⟩ ∧
      (afterLightPunch.passives (deltas.map Passive.update)).timers = []) ∧
    hurtOnce.isInvulnerable = true ∧
    hurtOnce.timers = [{ delay := 1000, callback := .invulnerabilityEnd }] ∧
    (hurtOnce.fire .invulnerabilityEnd 1000).1.isInvulnerable = false := by
  refine ⟨?_, ?_, by decide, ?_, by rw [hurtOnce_eq], by rw [hurtOnce_eq], rfl⟩
  · intro entry he
    simp only [setupAttacks, List.mem_cons, List.mem_singleton, List.not_mem_nil,
      or_false] at he
    rcases he with rfl | rfl | rfl | rfl <;> norm_num
  · intro entry he
    simp only [Mia.setupSpecialMoves, List.mem_cons, List.mem_singleton, List.not_mem_nil,
      or_false] at he
    rcases he with rfl | rfl | rfl <;> norm_num
  · intro deltas
    obtain ⟨h1, h2, _, h4⟩ :=
      CharacterBase.updates_keep_attack deltas afterLightPunch (by decide)
    exact ⟨h1.trans (by decide), h2.trans (by decide), h4.trans (by decide)⟩

/-- C22: starting from the empty buffer of a new `InputHandler`, after every sequence of
calls (`addToBuffer`, the key and gamepad handlers, `update` with its purge, `reset`) the
buffer holds at most 10 entries. -/
theorem inputBuffer_length_le_ten (ops : List InputOp) :
    (InputHandler.new.run ops).inputBuffer.length ≤ 10 :=
  InputHandler.run_length_le ops InputHandler.new (by simp [InputHandler.new])

/-- C23: on a buffer of exactly 10 entries `addToBuffer` yields the old buffer without its
first entry, followed by the new entry; on a shorter buffer it yields the old buffer
followed by the new entry. -/
theorem addToBuffer_fifo (h : InputHandler) (input : JSVal) (now : ℚ) :
    (h.inputBuffer.length = 10 →
      (h.addToBuffer input now).inputBuffer =
        h.inputBuffer.tail ++ [bufferEntry input now]) ∧
    (h.inputBuffer.length < 10 →
      (h.addToBuffer input now).inputBuffer = h.inputBuffer ++ [bufferEntry input now]) := by
  rw [InputHandler.addToBuffer_inputBuffer]
  constructor
  · intro hlen
    have hgt : h.inputBuffer.length + 1 > 10 := by omega
    simp only [hgt, if_true]
    cases hb : h.inputBuffer with
    | nil => rw [hb] at hlen; simp at hlen
    | cons e rest => rfl
  · intro hlt
    have hgt : ¬ (h.inputBuffer.length + 1 > 10) := by omega
    simp only [hgt, if_false]

/-- C24 (as stated, refuted): the buffer holds ten inputs of player 1; recording one input
of player 2 evicts the oldest of them: nine inputs of player 1 are left. -/
theorem addToBuffer_evicts_other_player :
    fullOfPlayer1.inputBuffer.length = 10 ∧
    (fullOfPlayer1.recordedActions (.num 1)).length = 10 ∧
    ((fullOfPlayer1.addToBuffer (mkInput 2 "kick") 1).recordedActions (.num 1)).length = 9 := by
  decide

/-- C24 (amended): for distinct players `p` and `q`, recording an input of `q` leaves the
inputs recorded for `p` as they were while the buffer holds fewer than 10 entries; on a
buffer of 10 entries they become those of the buffer without its oldest entry. -/
theorem addToBuffer_other_player (h : InputHandler) (p q : ℚ) (action : String) (now : ℚ)
    (hne : p ≠ q) :
    (h.inputBuffer.length < 10 →
      (h.addToBuffer (mkInput q action) now).recordedActions (.num p) =
        h.recordedActions (.num p)) ∧
    (h.inputBuffer.length = 10 →
      (h.addToBuffer (mkInput q action) now).recordedActions (.num p) =
        InputHandler.recordedActions { h with inputBuffer := h.inputBuffer.tail } (.num p)) := by
  have hnew := InputHandler.recordedActions_entry_other
    { h with inputBuffer := [bufferEntry (mkInput q action) now] } p q action now hne rfl
  constructor
  · intro hlt
    have hb : (h.addToBuffer (mkInput q action) now).inputBuffer =
        h.inputBuffer ++ [bufferEntry (mkInput q action) now] := by
      rw [InputHandler.addToBuffer_inputBuffer]
      have hgt : ¬ (h.inputBuffer.length + 1 > 10) := by omega
      simp only [hgt, if_false]
    rw [InputHandler.recordedActions_append _ h
      { h with inputBuffer := [bufferEntry (mkInput q action) now] } _ hb, hnew,
      List.append_nil]
  · intro hlen
    have hb : (h.addToBuffer (mkInput q action) now).inputBuffer =
        h.inputBuffer.tail ++ [bufferEntry (mkInput q action) now] := by
      rw [InputHandler.addToBuffer_inputBuffer]
      have hgt : h.inputBuffer.length + 1 > 10 := by omega
      simp only [hgt, if_true]
      cases hbuf : h.inputBuffer with
      | nil => rw [hbuf] at hlen; simp at hlen
      | cons e rest => rfl
    rw [InputHandler.recordedActions_append _ { h with inputBuffer := h.inputBuffer.tail }
      { h with inputBuffer := [bufferEntry (mkInput q action) now] } _ hb, hnew,
      List.append_nil]

theorem addToBuffer_other_player_witness :
    (oneEntryAtZero.addToBuffer (mkInput 2 "kick") 1).recordedActions (.num 1) =
      oneEntryAtZero.recordedActions (.num 1) :=
  (addToBuffer_other_player oneEntryAtZero 1 2 "kick" 1 (by norm_num)).1 (by decide)

/-- C25 (as stated, refuted): ten actions of a player whose four oldest are the `hadoken`
motion: the pattern occurs at position 0, but after `slice(-8)` it is not found and the
matching step returns `null`. -/
theorem matchStep_misses_oldest_four :
    hadokenThenBlocks.length = 10 ∧
    specialMovePatterns.lookup "hadoken" =
      some [.str "down", .str "downforward", .str "forward", .str "punch"] ∧
    matchesPattern hadokenThenBlocks
      [.str "down", .str "downforward", .str "forward", .str "punch"] = true ∧
    matchesPattern (sliceLast 8 hadokenThenBlocks)
      [.str "down", .str "downforward", .str "forward", .str "punch"] = false ∧
    matchStep hadokenThenBlocks = none := by
  refine ⟨rfl, rfl, by decide, by decide, by decide⟩

/-- C25 (amended): for every configured pattern and every list of a player's actions in
which the pattern occurs as a contiguous run inside the last 8 entries (at an index `i`
with `length - 8 <= i`), the matching step of `checkSpecialMove` finds it: `matchesPattern`
on the sliced list is true and the step returns a name. -/
theorem matchStep_finds_in_last_eight (actions : List JSVal) (entry : String × List JSVal)
    (i : Nat) (he : entry ∈ specialMovePatterns) (hlo : actions.length - 8 ≤ i)
    (hhi : i + entry.2.length ≤ actions.length)
    (hocc : ∀ j, j < entry.2.length → actions[i + j]? = entry.2[j]?) :
    matchesPattern (sliceLast 8 actions) entry.2 = true ∧
      (matchStep actions).isSome = true := by
  obtain ⟨hlen, hstr⟩ := specialMovePatterns_shape entry he
  have hm : matchesPattern (sliceLast 8 actions) entry.2 = true := by
    rw [matchesPattern_beq_iff]
    refine ⟨i - (actions.length - 8), ?_, ?_⟩
    · unfold sliceLast
      rw [List.length_drop]
      omega
    · intro j hj
      unfold sliceLast
      rw [List.getElem?_drop]
      have e : actions.length - 8 + (i - (actions.length - 8) + j) = i + j := by omega
      rw [e, hocc j hj, List.getElem?_eq_getElem hj, Option.some_beq_some]
      obtain ⟨s, hs⟩ := hstr _ (List.getElem_mem hj)
      rw [hs]
      exact JSVal.str_beq_self s
  refine ⟨hm, ?_⟩
  unfold matchStep
  have hsome : (specialMovePatterns.find?
      (fun entry => matchesPattern (sliceLast 8 actions) entry.2)).isSome = true :=
    List.find?_isSome.2 ⟨entry, he, hm⟩
  cases hf : specialMovePatterns.find?
      (fun entry => matchesPattern (sliceLast 8 actions) entry.2) with
  | none => rw [hf] at hsome; simp at hsome
  | some found => rfl

theorem matchStep_finds_in_last_eight_witness :
    matchesPattern (sliceLast 8 shoryukenThenHadoken)
        [.str "down", .str "downforward", .str "forward", .str "punch"] = true ∧
      (matchStep shoryukenThenHadoken).isSome = true :=
  matchStep_finds_in_last_eight shoryukenThenHadoken
    ("hadoken", [.str "down", .str "downforward", .str "forward", .str "punch"]) 4
    (by simp [specialMovePatterns]) (by decide) (by decide)
    (by
      intro j hj
      have hj4 : j < 4 := hj
      interval_cases j <;> rfl)

/-- C26: `checkSpecialMove` returns a name exactly when some configured pattern matches the
player's recent actions, and the pattern it names matches, is at least as long as every
other matching pattern, and is declared before every matching pattern of the same length. -/
theorem checkSpecialMove_longest_then_first (h : InputHandler) (player : JSVal) :
    ((∃ entry ∈ specialMovePatterns,
        matchesPattern (sliceLast 8 (h.playerActions player)) entry.2 = true) →
      (h.checkSpecialMove player).isSome = true) ∧
    (∀ name, h.checkSpecialMove player = some name →
      ∃ k pattern, specialMovePatterns[k]? = some (name, pattern) ∧
        matchesPattern (sliceLast 8 (h.playerActions player)) pattern = true ∧
        ∀ (k' : Nat) (entry' : String × List JSVal), specialMovePatterns[k']? = some entry' →
          matchesPattern (sliceLast 8 (h.playerActions player)) entry'.2 = true →
            entry'.2.length ≤ pattern.length ∧
              (entry'.2.length = pattern.length → k ≤ k')) := by
  have hcs : h.checkSpecialMove player = matchStep (h.playerActions player) := rfl
  rw [hcs]
  unfold matchStep
  constructor
  · rintro ⟨entry, he, hm⟩
    have hsome : (specialMovePatterns.find?
        (fun entry => matchesPattern (sliceLast 8 (h.playerActions player)) entry.2)).isSome =
          true := List.find?_isSome.2 ⟨entry, he, hm⟩
    cases hf : specialMovePatterns.find?
        (fun entry => matchesPattern (sliceLast 8 (h.playerActions player)) entry.2) with
    | none => rw [hf] at hsome; simp at hsome
    | some found => rfl
  · intro name hname
    cases hf : specialMovePatterns.find?
        (fun entry => matchesPattern (sliceLast 8 (h.playerActions player)) entry.2) with
    | none => rw [hf] at hname; simp at hname
    | some found =>
      rw [hf] at hname
      have hn : found.1 = name := by simpa using hname
      obtain ⟨hp, front, back, hsplit, hfront⟩ := List.find?_eq_some.1 hf
      have hfound : specialMovePatterns[front.length]? = some found := by
        rw [hsplit, List.getElem?_append_right (le_refl _)]
        simp
      have hmem : found ∈ specialMovePatterns := by
        rw [hsplit]
        simp
      refine ⟨front.length, found.2, ?_, hp, ?_⟩
      · rw [hfound, ← hn]
      · intro k' entry' hk' hm'
        have hmem' : entry' ∈ specialMovePatterns := List.getElem?_mem hk'
        have hl := (specialMovePatterns_shape found hmem).1
        have hl' := (specialMovePatterns_shape entry' hmem').1
        refine ⟨by omega, fun _ => ?_⟩
        by_contra hlt
        have hlt' : k' < front.length := by omega
        rw [hsplit, List.getElem?_append_left hlt'] at hk'
        have hin : entry' ∈ front := List.getElem?_mem hk'
        have hno := hfront entry' hin
        simp only [hm', Bool.not_true] at hno
        exact Bool.false_ne_true hno

/-- C27 (as stated, refuted): with the default configuration, an entry recorded at time 0
is still in the buffer after `update` at time 200, although its age, 200 ms, is more than
10 ticks (166.7 ms). -/
theorem update_keeps_entry_older_than_ten_ticks :
    oneEntryAtZero.bufferTimeout = 15 ∧
    oneEntryAtZero.inputBuffer = [bufferEntry (mkInput 1 "punch") 0] ∧
    (10 : ℚ) * (1667 / 100) ≤ 200 - 0 ∧
    (oneEntryAtZero.update 12 200 []).inputBuffer = [bufferEntry (mkInput 1 "punch") 0] := by
  refine ⟨rfl, rfl, by norm_num, ?_⟩
  have hb : oneEntryAtZero.inputBuffer = [bufferEntry (mkInput 1 "punch") 0] := rfl
  have ht : oneEntryAtZero.bufferTimeout = 15 := rfl
  have hr : InputHandler.isRecent 15 200 0 = true := by decide!
  simp only [InputHandler.update, InputHandler.purge, List.foldl_nil, hb, ht,
    List.filter_cons, List.filter_nil, (bufferEntry_getProp _ _).2.2.2, hr, if_true]

/-- C27 (amended): with the default time-to-live of 15 frames, the purge of `update` at time
`t` keeps the entries in their order; an entry recorded at `ts` stays when its age `t - ts`
is at most 250.049 ms and goes when its age is at least 250.051 ms (the bound,
`15 * 16.67` in binary64, lies between the two). With no gamepad call, that is the buffer
after `update`. -/
theorem purge_keeps_recent_drops_stale (h : InputHandler) (deltaTime t : ℚ)
    (hd : h.bufferTimeout = 15) :
    List.Sublist (h.purge t).inputBuffer h.inputBuffer ∧
    (∀ input ts, bufferEntry input ts ∈ h.inputBuffer →
      (t - ts ≤ 250049 / 1000 → bufferEntry input ts ∈ (h.purge t).inputBuffer) ∧
      (250051 / 1000 ≤ t - ts → bufferEntry input ts ∉ (h.purge t).inputBuffer)) ∧
    (h.update deltaTime t []).inputBuffer = (h.purge t).inputBuffer := by
  refine ⟨?_, ?_, rfl⟩
  · unfold InputHandler.purge
    exact List.filter_sublist _
  · intro input ts hmem
    have hmemb : bufferEntry input ts ∈ (h.purge t).inputBuffer ↔
        InputHandler.isRecent 15 t ts = true := by
      unfold InputHandler.purge
      simp only [List.mem_filter, hmem, true_and, (bufferEntry_getProp input ts).2.2.2, hd]
    have hrec : InputHandler.isRecent 15 t ts =
        Float64.lt (Float64.round (t - ts)) (.finite (4398926120406221 / 2 ^ 44)) := by
      unfold InputHandler.isRecent
      rw [Float64.fifteen_frames]
      rfl
    rw [hmemb, hrec]
    constructor
    · intro hle
      exact Float64.round_lt_of_le (t - ts) _ 16387212 (-16) (by norm_num) (by norm_num)
        (by norm_num) (by norm_num) (le_trans hle (by norm_num)) (by norm_num)
    · intro hge
      rw [Float64.round_not_lt_of_le (t - ts) _ 16387342 (-16) (by norm_num) (by norm_num)
        (by norm_num) (le_trans (by norm_num) hge) (by norm_num)]
      exact Bool.false_ne_true

theorem purge_keeps_recent_drops_stale_witness :
    bufferEntry (mkInput 1 "punch") 0 ∈ (oneEntryAtZero.purge 200).inputBuffer ∧
    ¬ (bufferEntry (mkInput 1 "punch") 0 ∈ (oneEntryAtZero.purge 251).inputBuffer) := by
  have hmem : bufferEntry (mkInput 1 "punch") 0 ∈ oneEntryAtZero.inputBuffer := by
    have hb : oneEntryAtZero.inputBuffer = [bufferEntry (mkInput 1 "punch") 0] := rfl
    rw [hb]
    exact List.mem_singleton.2 rfl
  constructor
  · exact ((purge_keeps_recent_drops_stale oneEntryAtZero 1 200 rfl).2.1
      (mkInput 1 "punch") 0 hmem).1 (by norm_num)
  · exact ((purge_keeps_recent_drops_stale oneEntryAtZero 1 251 rfl).2.1
      (mkInput 1 "punch") 0 hmem).2 (by norm_num)

/-- C28 (evaluated on the code): a new character (direction 1) calls `move(0)`: `Math.sign(0)`
is 0, so the direction is 0, neither 1 nor -1. -/
theorem move_zero_direction_zero :
    CharacterBase.new.direction = 1 ∧
    (CharacterBase.new.move 0).1.direction = 0 ∧
    (CharacterBase.new.move 0).1.direction ≠ 1 ∧
    (CharacterBase.new.move 0).1.direction ≠ -1 ∧
    (CharacterBase.new.move 0).2 = .returned () := by
  have hm : CharacterBase.new.move 0 =
      ({ CharacterBase.new with state := "walk", currentSprite := some "walk", direction := 0 },
        .returned ()) := by
    simp +decide [CharacterBase.move, CharacterBase.changeState, CharacterBase.new]
  rw [hm]
  refine ⟨rfl, rfl, ?_, ?_, rfl⟩ <;> norm_num

/-- C29: on a buffer whose entries were all pushed by `addToBuffer`, `checkSpecialMove`
returns `null` for every player; for a player other than `undefined` the filter on
`entry.player` selects no entry. -/
theorem checkSpecialMove_null_on_recorded (h : InputHandler) (player : JSVal)
    (hb : ∀ e ∈ h.inputBuffer, ∃ input now, e = bufferEntry input now) :
    h.checkSpecialMove player = none ∧
      (player ≠ JSVal.undefined → h.playerActions player = []) := by
  constructor
  · have hcs : h.checkSpecialMove player = matchStep (h.playerActions player) := rfl
    rw [hcs]
    unfold matchStep
    have hu : ∀ x ∈ sliceLast 8 (h.playerActions player), x = JSVal.undefined := by
      intro x hx
      unfold sliceLast at hx
      exact InputHandler.playerActions_undefined h player hb x (List.mem_of_mem_drop hx)
    have hnone : specialMovePatterns.find?
        (fun entry => matchesPattern (sliceLast 8 (h.playerActions player)) entry.2) = none := by
      rw [List.find?_eq_none]
      intro entry he
      rw [matchesPattern_undefined _ entry hu he]
      exact Bool.false_ne_true
    rw [hnone]
  · intro hne
    unfold InputHandler.playerActions
    have hfilter : h.inputBuffer.filter (fun input => input.getProp "player" == player) = [] := by
      rw [List.filter_eq_nil_iff]
      intro e he
      obtain ⟨input, now, rfl⟩ := hb e he
      rw [(bufferEntry_getProp input now).1]
      cases player with
      | undefined => exact absurd rfl hne
      | num n => exact Bool.false_ne_true
      | str s => exact Bool.false_ne_true
      | obj fields => exact Bool.false_ne_true
    rw [hfilter]
    rfl

/-- After ten recorded punches of player 1, `checkSpecialMove(1)` is `null` and its filter
selects nothing. -/
theorem checkSpecialMove_null_on_recorded_witness :
    fullOfPlayer1.checkSpecialMove (.num 1) = none ∧
      fullOfPlayer1.playerActions (.num 1) = [] := by
  have h := checkSpecialMove_null_on_recorded fullOfPlayer1 (.num 1)
    (InputHandler.run_entries _ InputHandler.new (by simp [InputHandler.new]))
  exact ⟨h.1, h.2 (by simp)⟩

/-- C30 (as stated, refuted): a new `Mia` (meter 0) calls
`executeSpecialMove('constructor')`. The table of special moves inherits `constructor` from
`Object.prototype`, so the guard lets the call through: it returns `true`, the state is
`special` and the meter is `NaN`. With the meter `NaN`, `executeSpecialMove('tideWave')`
returns `true` as well. -/
theorem executeSpecialMove_inherited_name_accepted :
    Mia.new.specialMeter = 0 ∧
    Mia.setupSpecialMoves.lookup "constructor" = none ∧
    (Mia.executeSpecialMove Mia.new "constructor").2 = .returned true ∧
    (Mia.run Mia.new [.executeSpecialMove "constructor"]).specialMeter = .nan ∧
    (Mia.run Mia.new [.executeSpecialMove "constructor"]).specialMeter ≠ 0 ∧
    (Mia.run Mia.new [.executeSpecialMove "constructor"]).state = "special" ∧
    (Mia.executeSpecialMove (Mia.run Mia.new [.executeSpecialMove "constructor"])
      "tideWave").2 = .returned true := by
  have hrun : Mia.run Mia.new [.executeSpecialMove "constructor"] =
      (Mia.executeSpecialMove Mia.new "constructor").1 := rfl
  have hex : Mia.executeSpecialMove Mia.new "constructor" =
      ({ Mia.new with specialMeter := .nan, isAttacking := true, state := "special",
                      currentSprite := some "special",
                      timers := [{ delay := 0, callback := .specialEnd }] },
        .returned true) := by
    simp +decide [Mia.executeSpecialMove, objectLookup, Mia.setupSpecialMoves, List.lookup,
      objectPrototypeKeys, CharacterBase.changeState, Mia.new, CharacterBase.new, spriteKeys]
  rw [hrun, hex]
  refine ⟨rfl, by decide, rfl, rfl, by simp [Float64.ofNat_eq], rfl, ?_⟩
  exact (Mia.executeSpecialMove_of_sprite _ "tideWave" "special"
    ⟨"Tide Wave", 15, 25, 8, 5, 12, ⟨-60, -40, 120, 80⟩, 12,
      ["down", "downforward", "forward", "punch"]⟩ rfl (by decide)
    (Float64.nan_not_lt _)).1

/-- C30 (amended): in every state reached from a new `Mia` by any sequence of calls (the
methods, the timer callbacks, the physics step of the engine) in which `executeSpecialMove`
is given no name inherited from `Object.prototype`, the meter is 0, and for every such name
`executeSpecialMove` returns `false` and leaves the state as it is. -/
theorem specialMeter_zero_of_own_names (ops : List MiaOp)
    (hops : ∀ op ∈ ops, op.ownName = true) :
    (Mia.run Mia.new ops).specialMeter = 0 ∧
    ∀ moveName : String, moveName ∉ objectPrototypeKeys →
      Mia.executeSpecialMove (Mia.run Mia.new ops) moveName =
        (Mia.run Mia.new ops, .returned false) := by
  have h0 : (Mia.run Mia.new ops).specialMeter = 0 :=
    Mia.run_specialMeter ops Mia.new rfl hops
  exact ⟨h0, fun moveName hn => Mia.executeSpecialMove_meter_zero _ moveName h0 hn⟩

/-- After a punch, an attempt at `tideWave`, a hit of 5 and a frame, the meter is 0 and
`executeSpecialMove('waterDance')` returns `false`. -/
theorem specialMeter_zero_of_own_names_witness :
    (Mia.run Mia.new
      [.attack "lightPunch", .executeSpecialMove "tideWave", .takeDamage 5,
        .update 1]).specialMeter = 0 ∧
    (Mia.executeSpecialMove
      (Mia.run Mia.new
        [.attack "lightPunch", .executeSpecialMove "tideWave", .takeDamage 5, .update 1])
      "waterDance").2 = .returned false := by
  have h := specialMeter_zero_of_own_names
    [.attack "lightPunch", .executeSpecialMove "tideWave", .takeDamage 5, .update 1]
    (by simp [MiaOp.ownName, objectPrototypeKeys])
  refine ⟨h.1, ?_⟩
  rw [h.2 "waterDance" (by decide)]

end Fighting
